import Mathlib

/-!
Verification of the CLOAKBE ticket-lifecycle core: the QR codec
(HMAC-SHA256 signing, base64url/JSON encoding) from internal/qr/payload.go,
the slot pool from internal/repository/slot_repo.go, the ticket store from
internal/repository/ticket_repo.go, and the CheckIn / Scan / Release /
CreateService use cases from internal/usecase. Go strings are modelled as
Lean strings (byte-level reasoning is done under ASCII hypotheses), machine
integers as unbounded Int/Nat with explicit reduction modulo 2^32 where the
hash arithmetic overflows, the Postgres store as explicit row lists inside a
Store structure, and SQL NOW() as the store's clock field.
-/
/-! ### Bytes and hex -/
/-- UTF-8 bytes of a Go string, valid for ASCII content (each char one byte). -/
def strBytes (s : String) : List Nat := s.data.map Char.toNat

/-- Hex character for a nibble, lowercase, as emitted by Go's `%x` verb. -/
def hexDigit (n : Nat) : Char :=
  if n < 10 then Char.ofNat (48 + n) else Char.ofNat (87 + n)

/-- Lowercase hex rendering of a byte list, two digits per byte (`%x` on []byte). -/
def bytesToHex (bs : List Nat) : String :=
  String.mk (bs.flatMap (fun b => [hexDigit (b / 16 % 16), hexDigit (b % 16)]))

/-! ### SHA-256 (crypto/sha256), on byte lists, words as Nat mod 2^32 -/
def rotr32 (x n : Nat) : Nat := ((x >>> n) ||| (x <<< (32 - n))) % 4294967296

def sha256K : List Nat :=
  [1116352408, 1899447441, 3049323471, 3921009573, 961987163, 1508970993,
   2453635748, 2870763221, 3624381080, 310598401, 607225278, 1426881987,
   1925078388, 2162078206, 2614888103, 3248222580, 3835390401, 4022224774,
   264347078, 604807628, 770255983, 1249150122, 1555081692, 1996064986,
   2554220882, 2821834349, 2952996808, 3210313671, 3336571891, 3584528711,
   113926993, 338241895, 666307205, 773529912, 1294757372, 1396182291,
   1695183700, 1986661051, 2177026350, 2456956037, 2730485921, 2820302411,
   3259730800, 3345764771, 3516065817, 3600352804, 4094571909, 275423344,
   430227734, 506948616, 659060556, 883997877, 958139571, 1322822218,
   1537002063, 1747873779, 1955562222, 2024104815, 2227730452, 2361852424,
   2428436474, 2756734187, 3204031479, 3329325298]

def sha256H0 : List Nat :=
  [1779033703, 3144134277, 1013904242, 2773480762, 1359893119, 2600822924, 528734635, 1541459225]

/-- Append the next message-schedule word (input length ≥ 16). -/
def sha256ExtendStep (ws : List Nat) : List Nat :=
  let n := ws.length
  let w15 := ws.getD (n - 15) 0
  let w2 := ws.getD (n - 2) 0
  let w16 := ws.getD (n - 16) 0
  let w7 := ws.getD (n - 7) 0
  let s0 := (rotr32 w15 7) ^^^ (rotr32 w15 18) ^^^ (w15 >>> 3)
  let s1 := (rotr32 w2 17) ^^^ (rotr32 w2 19) ^^^ (w2 >>> 10)
  ws ++ [(w16 + s0 + w7 + s1) % 4294967296]

/-- Message schedule: the block's 16 words extended to 64. -/
def sha256Schedule (block : List Nat) : List Nat :=
  Nat.repeat sha256ExtendStep 48 block

/-- One round of the SHA-256 compression function on registers [a..h]. -/
def sha256Round (hs : List Nat) (kw : Nat × Nat) : List Nat :=
  match hs with
  | [a, b, c, d, e, f, g, h] =>
    let s1 := (rotr32 e 6) ^^^ (rotr32 e 11) ^^^ (rotr32 e 25)
    let ch := (e &&& f) ^^^ ((4294967295 ^^^ e) &&& g)
    let t1 := (h + s1 + ch + kw.1 + kw.2) % 4294967296
    let s0 := (rotr32 a 2) ^^^ (rotr32 a 13) ^^^ (rotr32 a 22)
    let mj := (a &&& b) ^^^ (a &&& c) ^^^ (b &&& c)
    let t2 := (s0 + mj) % 4294967296
    [(t1 + t2) % 4294967296, a, b, c, (d + t1) % 4294967296, e, f, g]
  | other => other

/-- Big-endian 32-bit words of a byte list (groups of four). -/
def bytesToWords : List Nat → List Nat
  | b1 :: b2 :: b3 :: b4 :: rest =>
    (b1 * 16777216 + b2 * 65536 + b3 * 256 + b4) :: bytesToWords rest
  | _ => []

/-- Compress one 64-byte block into the running hash state. -/
def sha256Compress (hs : List Nat) (block : List Nat) : List Nat :=
  let sched := sha256Schedule (bytesToWords block)
  let out := (sched.zip sha256K).foldl sha256Round hs
  hs.zipWith (fun x y => (x + y) % 4294967296) out

/-- Big-endian 8-byte rendering of a length in bits. -/
def be64 (n : Nat) : List Nat :=
  [n >>> 56 % 256, n >>> 48 % 256, n >>> 40 % 256, n >>> 32 % 256,
   n >>> 24 % 256, n >>> 16 % 256, n >>> 8 % 256, n % 256]

/-- SHA-256 padding: 0x80, zeros to 56 mod 64, then the bit length. -/
def sha256Pad (msg : List Nat) : List Nat :=
  let padZeros := (119 - msg.length % 64) % 64
  msg ++ 0x80 :: List.replicate padZeros 0 ++ be64 (msg.length * 8)

/-- Split into 64-byte chunks; the fuel argument bounds the recursion. -/
def chunks64 : Nat → List Nat → List (List Nat)
  | 0, _ => []
  | _ + 1, [] => []
  | fuel + 1, xs => xs.take 64 :: chunks64 fuel (xs.drop 64)

/-- SHA-256 digest (32 bytes) of a byte list. -/
def sha256 (msg : List Nat) : List Nat :=
  let padded := sha256Pad msg
  let blocks := chunks64 (padded.length) padded
  let h := blocks.foldl sha256Compress sha256H0
  h.flatMap (fun w => [w >>> 24 % 256, w >>> 16 % 256, w >>> 8 % 256, w % 256])

/-! ### HMAC-SHA256 (crypto/hmac) -/
/-- HMAC-SHA256 over byte lists, block size 64. -/
def hmacSha256 (key msg : List Nat) : List Nat :=
  let k0 := if 64 < key.length then sha256 key else key
  let kpad := k0 ++ List.replicate (64 - k0.length) 0
  let ipad := kpad.map (fun b => b ^^^ 0x36)
  let opad := kpad.map (fun b => b ^^^ 0x5c)
  sha256 (opad ++ sha256 (ipad ++ msg))

/-- The digest string computed by `Payload.Sign`: lowercase hex of the HMAC. -/
def hmacHex (secret msg : String) : String :=
  bytesToHex (hmacSha256 (strBytes secret) (strBytes msg))

/-! ### base64url with padding (encoding/base64 URLEncoding) -/
/-- Character of the URL-safe base64 alphabet for a 6-bit value. -/
def b64Char (n : Nat) : Char :=
  if n < 26 then Char.ofNat (65 + n)
  else if n < 52 then Char.ofNat (97 + n - 26)
  else if n < 62 then Char.ofNat (48 + n - 52)
  else if n = 62 then '-'
  else '_'

/-- Inverse alphabet lookup; `none` for characters outside the alphabet. -/
def b64Val (c : Char) : Option Nat :=
  if 'A' ≤ c ∧ c ≤ 'Z' then some (c.toNat - 65)
  else if 'a' ≤ c ∧ c ≤ 'z' then some (c.toNat - 97 + 26)
  else if '0' ≤ c ∧ c ≤ '9' then some (c.toNat - 48 + 52)
  else if c = '-' then some 62
  else if c = '_' then some 63
  else none

/-- URL-safe base64 encoding with `=` padding, three bytes to four characters. -/
def base64encode : List Nat → List Char
  | [] => []
  | [b1] => [b64Char (b1 / 4), b64Char (b1 % 4 * 16), '=', '=']
  | [b1, b2] => [b64Char (b1 / 4), b64Char (b1 % 4 * 16 + b2 / 16), b64Char (b2 % 16 * 4), '=']
  | b1 :: b2 :: b3 :: rest =>
    b64Char (b1 / 4) :: b64Char (b1 % 4 * 16 + b2 / 16) ::
    b64Char (b2 % 16 * 4 + b3 / 64) :: b64Char (b3 % 64) :: base64encode rest

/-- URL-safe base64 decoding: requires length a multiple of four with canonical
padding, rejects characters outside the alphabet (as Go's
`base64.URLEncoding.DecodeString` does; stray bits in the final group are
ignored as in Go's non-strict mode). -/
def base64decode : List Char → Option (List Nat)
  | [] => some []
  | c1 :: c2 :: c3 :: c4 :: rest =>
    match b64Val c1, b64Val c2 with
    | some v1, some v2 =>
      if c3 = '=' then
        if c4 = '=' ∧ rest = [] then some [v1 * 4 + v2 / 16] else none
      else
        match b64Val c3 with
        | some v3 =>
          if c4 = '=' then
            if rest = [] then some [v1 * 4 + v2 / 16, v2 % 16 * 16 + v3 / 4] else none
          else
            match b64Val c4 with
            | some v4 =>
              (base64decode rest).map
                (fun bs => (v1 * 4 + v2 / 16) :: (v2 % 16 * 16 + v3 / 4) :: (v3 % 4 * 64 + v4) :: bs)
            | none => none
        | none => none
    | _, _ => none
  | _ => none

/-! ### Decimal integers -/
def digitChar (n : Nat) : Char := Char.ofNat (48 + n % 10)

def isDigitChar (c : Char) : Bool := 48 ≤ c.toNat && c.toNat ≤ 57

/-- Decimal digit characters of a natural number, most significant first. -/
def natChars (n : Nat) : List Char :=
  if h : n < 10 then [digitChar n] else natChars (n / 10) ++ [digitChar n]
termination_by n
decreasing_by exact Nat.div_lt_self (by omega) (by omega)

/-- Decimal rendering of an integer, with a leading minus for negatives
(the output of Go's `%d` verb and of `strconv.Itoa`). -/
def intChars (i : Int) : List Char :=
  (if i < 0 then ['-'] else []) ++ natChars i.natAbs

def intStr (i : Int) : String := String.mk (intChars i)

def digitsToNat (ds : List Char) : Nat :=
  ds.foldl (fun a c => a * 10 + (c.toNat - 48)) 0

/-! ### JSON values (encoding/json), specialised to what `Payload` uses -/
/-- Parsed JSON value. Numbers keep their integer part together with a flag
recording whether the literal was a plain integer (no fraction or exponent),
because `json.Unmarshal` into an int field fails on non-integer literals. -/
inductive Json where
  | null
  | bool (b : Bool)
  | num (i : Int) (intOnly : Bool)
  | str (s : String)
  | arr (xs : List Json)
  | obj (ms : List (String × Json))

def isWsChar (c : Char) : Bool := c = ' ' || c = '\t' || c = '\n' || c = '\r'

def skipWs : List Char → List Char
  | c :: cs => if isWsChar c then skipWs cs else c :: cs
  | [] => []

def hexValC (c : Char) : Option Nat :=
  if '0' ≤ c ∧ c ≤ '9' then some (c.toNat - 48)
  else if 'a' ≤ c ∧ c ≤ 'f' then some (c.toNat - 87)
  else if 'A' ≤ c ∧ c ≤ 'F' then some (c.toNat - 55)
  else none

def unescapeChar : Char → Option Char
  | '"' => some '"'
  | '\\' => some '\\'
  | '/' => some '/'
  | 'b' => some (Char.ofNat 8)
  | 'f' => some (Char.ofNat 12)
  | 'n' => some '\n'
  | 'r' => some '\r'
  | 't' => some '\t'
  | _ => none

/-- Body of a JSON string after the opening quote; handles escapes and rejects
raw control characters, as Go's decoder does. -/
def parseStringBody (acc : List Char) : List Char → Option (String × List Char)
  | '"' :: rest => some (String.mk acc.reverse, rest)
  | '\\' :: 'u' :: a :: b :: c :: d :: rest =>
    match hexValC a, hexValC b, hexValC c, hexValC d with
    | some va, some vb, some vc, some vd =>
      parseStringBody (Char.ofNat (((va * 16 + vb) * 16 + vc) * 16 + vd) :: acc) rest
    | _, _, _, _ => none
  | '\\' :: e :: rest =>
    match unescapeChar e with
    | some ch => parseStringBody (ch :: acc) rest
    | none => none
  | c :: rest => if c.toNat < 32 then none else parseStringBody (c :: acc) rest
  | [] => none

def takeDigits : List Char → List Char × List Char
  | c :: cs =>
    if isDigitChar c then
      let (ds, r) := takeDigits cs
      (c :: ds, r)
    else ([], c :: cs)
  | [] => ([], [])

def mkIntLit (neg : Bool) (ds : List Char) : Int :=
  if neg then -(digitsToNat ds : Int) else (digitsToNat ds : Int)

/-- Optional exponent sign and mandatory digits after an `e`/`E`. -/
def parseExpTail : List Char → Option (List Char)
  | '+' :: r =>
    match takeDigits r with
    | ([], _) => none
    | (_, r2) => some r2
  | '-' :: r =>
    match takeDigits r with
    | ([], _) => none
    | (_, r2) => some r2
  | r =>
    match takeDigits r with
    | ([], _) => none
    | (_, r2) => some r2

/-- Fraction and exponent after the integer digits of a number literal. -/
def parseNumTail (neg : Bool) (ds : List Char) (cs : List Char) : Option (Json × List Char) :=
  match cs with
  | '.' :: r =>
    match takeDigits r with
    | ([], _) => none
    | (_, cs2) =>
      match cs2 with
      | 'e' :: r2 => (parseExpTail r2).map (fun r3 => (.num (mkIntLit neg ds) false, r3))
      | 'E' :: r2 => (parseExpTail r2).map (fun r3 => (.num (mkIntLit neg ds) false, r3))
      | _ => some (.num (mkIntLit neg ds) false, cs2)
  | 'e' :: r2 => (parseExpTail r2).map (fun r3 => (.num (mkIntLit neg ds) false, r3))
  | 'E' :: r2 => (parseExpTail r2).map (fun r3 => (.num (mkIntLit neg ds) false, r3))
  | _ => some (.num (mkIntLit neg ds) true, cs)

/-- A JSON number literal: optional minus, integer digits without a spurious
leading zero, then fraction/exponent. -/
def parseNumber (cs : List Char) : Option (Json × List Char) :=
  let neg := cs.headD ' ' == '-'
  let cs1 := if neg then cs.tail else cs
  let ds := (takeDigits cs1).1
  let cs2 := (takeDigits cs1).2
  if ds = [] then none
  else if 1 < ds.length ∧ ds.headD '0' = '0' then none
  else parseNumTail neg ds cs2

mutual
/-- Parse one JSON value; the fuel bounds nesting and member recursion and is
instantiated with the input length at the top entry point. -/
def parseValue : Nat → List Char → Option (Json × List Char)
  | 0, _ => none
  | fuel + 1, cs => parseValueCore fuel (skipWs cs)
termination_by fuel _ => (fuel, 0)

/-- Dispatch on the first significant character of a value. -/
def parseValueCore : Nat → List Char → Option (Json × List Char)
  | _, 'n' :: 'u' :: 'l' :: 'l' :: r => some (.null, r)
  | _, 't' :: 'r' :: 'u' :: 'e' :: r => some (.bool true, r)
  | _, 'f' :: 'a' :: 'l' :: 's' :: 'e' :: r => some (.bool false, r)
  | _, '"' :: r => (parseStringBody [] r).map (fun sr => (.str sr.1, sr.2))
  | fuel, '[' :: r => parseArrBody fuel (skipWs r)
  | fuel, '{' :: r => parseObjBody fuel (skipWs r)
  | _, c :: r => if c = '-' || isDigitChar c then parseNumber (c :: r) else none
  | _, [] => none
termination_by fuel _ => (fuel, 10)

/-- Array contents after `[`: empty array or one-or-more elements. -/
def parseArrBody : Nat → List Char → Option (Json × List Char)
  | _, ']' :: r2 => some (.arr [], r2)
  | fuel, r2 => (parseElems fuel r2).map (fun er => (.arr er.1, er.2))
termination_by fuel _ => (fuel, 8)

/-- One or more comma-separated array elements, ending at `]`. -/
def parseElems : Nat → List Char → Option (List Json × List Char)
  | 0, _ => none
  | fuel + 1, cs => (parseValue fuel cs).bind (fun vr => parseElemsRest fuel vr.1 (skipWs vr.2))
termination_by fuel _ => (fuel, 3)

/-- Continuation after one array element: `,` continues, `]` closes. -/
def parseElemsRest : Nat → Json → List Char → Option (List Json × List Char)
  | fuel, v, ',' :: r2 => (parseElems fuel r2).map (fun er => (v :: er.1, er.2))
  | _, v, ']' :: r2 => some ([v], r2)
  | _, _, _ => none
termination_by fuel _ _ => (fuel, 9)

/-- Object contents after an opening brace: empty object or members. -/
def parseObjBody : Nat → List Char → Option (Json × List Char)
  | _, '}' :: r2 => some (.obj [], r2)
  | fuel, r2 => (parseMembers fuel r2).map (fun mr => (.obj mr.1, mr.2))
termination_by fuel _ => (fuel, 8)

/-- One or more `"key": value` members, ending at the closing brace. -/
def parseMembers : Nat → List Char → Option (List (String × Json) × List Char)
  | 0, _ => none
  | fuel + 1, cs => parseMembersKey fuel (skipWs cs)
termination_by fuel _ => (fuel, 4)

/-- A member must start with a quoted key. -/
def parseMembersKey : Nat → List Char → Option (List (String × Json) × List Char)
  | fuel, '"' :: r =>
    (parseStringBody [] r).bind (fun kr => parseMemberColon fuel kr.1 (skipWs kr.2))
  | _, _ => none
termination_by fuel _ => (fuel, 9)

/-- After the key: a colon, then the member's value. -/
def parseMemberColon : Nat → String → List Char → Option (List (String × Json) × List Char)
  | fuel, k, ':' :: r2 =>
    (parseValue fuel (skipWs r2)).bind (fun vr => parseMemberMore fuel k vr.1 (skipWs vr.2))
  | _, _, _ => none
termination_by fuel _ _ => (fuel, 6)

/-- Continuation after one member: a comma continues, a closing brace ends. -/
def parseMemberMore : Nat → String → Json → List Char → Option (List (String × Json) × List Char)
  | fuel, k, v, ',' :: r4 => (parseMembers fuel r4).map (fun mr => ((k, v) :: mr.1, mr.2))
  | _, k, v, '}' :: r4 => some ([(k, v)], r4)
  | _, _, _, _ => none
termination_by fuel _ _ _ => (fuel, 5)
end

/-! ### The QR payload (internal/qr/payload.go) -/
/-- QR payload struct: `v`, `tid`, `sid`, `bid`, `slot`, `iat`, `hmac`. -/
structure Payload where
  version : Int
  ticketID : String
  serviceID : String
  businessID : String
  slotNumber : Int
  issuedAt : Int
  hmac : String
deriving DecidableEq, Repr

/-- JSON escaping of one character as Go's `encoding/json` emits it (with the
default HTML escaping of `<`, `>`, `&`). -/
def jsonEscapeChar (c : Char) : List Char :=
  if c = '"' then ['\\', '"']
  else if c = '\\' then ['\\', '\\']
  else if c = '\n' then ['\\', 'n']
  else if c = '\r' then ['\\', 'r']
  else if c = '\t' then ['\\', 't']
  else if c = '<' then ['\\', 'u', '0', '0', '3', 'c']
  else if c = '>' then ['\\', 'u', '0', '0', '3', 'e']
  else if c = '&' then ['\\', 'u', '0', '0', '2', '6']
  else if c.toNat < 32 then
    ['\\', 'u', '0', '0', hexDigit (c.toNat / 16), hexDigit (c.toNat % 16)]
  else [c]

/-- A JSON string literal's characters, quotes included. -/
def jsonStrChars (s : String) : List Char :=
  '"' :: (s.data.flatMap jsonEscapeChar ++ ['"'])

/-- Characters of `json.Marshal` applied to a `Payload`: a compact object with
the struct's tag names in declaration order. -/
def marshalPayload (p : Payload) : List Char :=
  '{' :: (jsonStrChars "v" ++ ':' :: (intChars p.version ++
  ',' :: (jsonStrChars "tid" ++ ':' :: (jsonStrChars p.ticketID ++
  ',' :: (jsonStrChars "sid" ++ ':' :: (jsonStrChars p.serviceID ++
  ',' :: (jsonStrChars "bid" ++ ':' :: (jsonStrChars p.businessID ++
  ',' :: (jsonStrChars "slot" ++ ':' :: (intChars p.slotNumber ++
  ',' :: (jsonStrChars "iat" ++ ':' :: (intChars p.issuedAt ++
  ',' :: (jsonStrChars "hmac" ++ ':' :: (jsonStrChars p.hmac ++ ['}']))))))))))))))

/-- Payload with Go zero values, the starting point of `json.Unmarshal`. -/
def zeroPayload : Payload :=
  { version := 0, ticketID := "", serviceID := "", businessID := "",
    slotNumber := 0, issuedAt := 0, hmac := "" }

/-- ASCII lowercasing of one character. -/
def lowerChar (c : Char) : Char :=
  if 65 ≤ c.toNat ∧ c.toNat ≤ 90 then Char.ofNat (c.toNat + 32) else c

/-- Struct-field matching of `json.Unmarshal`: tag names match
case-insensitively. -/
def keyMatch (k field : String) : Bool := k.data.map lowerChar == field.data

/-- An integer-typed field accepts only plain integer literals. -/
def asIntField : Json → Option Int
  | .num i true => some i
  | _ => none

/-- Apply one object member to the payload being built: known keys must carry
a value of the field's type, unknown keys are ignored, and JSON `null` leaves
any field untouched, as in Go. -/
def applyField (p : Payload) (k : String) (v : Json) : Option Payload :=
  match v with
  | .null => some p
  | _ =>
    if keyMatch k "v" then (asIntField v).map (fun n => { p with version := n })
    else if keyMatch k "tid" then
      match v with | .str s => some { p with ticketID := s } | _ => none
    else if keyMatch k "sid" then
      match v with | .str s => some { p with serviceID := s } | _ => none
    else if keyMatch k "bid" then
      match v with | .str s => some { p with businessID := s } | _ => none
    else if keyMatch k "slot" then (asIntField v).map (fun n => { p with slotNumber := n })
    else if keyMatch k "iat" then (asIntField v).map (fun n => { p with issuedAt := n })
    else if keyMatch k "hmac" then
      match v with | .str s => some { p with hmac := s } | _ => none
    else some p

def payloadFromJson : Json → Option Payload
  | .obj ms => ms.foldlM (fun p kv => applyField p kv.1 kv.2) zeroPayload
  | _ => none

/-- Model of `json.Unmarshal(data, &payload)`: parse one JSON value, demand
only whitespace after it, then populate the struct from the object. -/
def unmarshalPayload (cs : List Char) : Option Payload :=
  match parseValue (cs.length + 1) cs with
  | none => none
  | some (j, rest) => if skipWs rest = [] then payloadFromJson j else none

/-! ### UUID parsing (github.com/google/uuid, as used by qr.Decode) -/
def isHexChar (c : Char) : Bool :=
  ('0' ≤ c && c ≤ '9') || ('a' ≤ c && c ≤ 'f') || ('A' ≤ c && c ≤ 'F')

/-- Canonical 36-character shape xxxxxxxx-xxxx-xxxx-xxxx-xxxxxxxxxxxx. -/
def uuidCanonical (cs : List Char) : Bool :=
  cs.length == 36 &&
  cs.enum.all (fun ic =>
    if ic.1 = 8 ∨ ic.1 = 13 ∨ ic.1 = 18 ∨ ic.1 = 23 then ic.2 = '-' else isHexChar ic.2)

/-- Whether `uuid.Parse` accepts the string: canonical form, urn-prefixed,
braced, or 32 plain hex digits. -/
def uuidParseOk (s : String) : Bool :=
  let cs := s.data
  if cs.length == 36 then uuidCanonical cs
  else if cs.length == 45 then
    (String.mk (cs.take 9)).toLower == "urn:uuid:" && uuidCanonical (cs.drop 9)
  else if cs.length == 38 then
    cs.headD ' ' == '{' && cs.getLastD ' ' == '}' && uuidCanonical ((cs.drop 1).take 36)
  else if cs.length == 32 then cs.all isHexChar
  else false

/-! ### qr.Payload operations (internal/qr/payload.go) -/
/-- Model of `qr.New`: version 1, empty hmac, issue time from the clock. -/
def qrNew (ticketID serviceID businessID : String) (slotNumber : Int) (now : Int) : Payload :=
  { version := 1, ticketID := ticketID, serviceID := serviceID, businessID := businessID,
    slotNumber := slotNumber, issuedAt := now, hmac := "" }

/-- The fixed-order canonical signing string
`v=..&tid=..&sid=..&bid=..&slot=..&iat=..`. -/
def canonicalString (p : Payload) : String :=
  "v=" ++ intStr p.version ++ "&tid=" ++ p.ticketID ++ "&sid=" ++ p.serviceID ++
  "&bid=" ++ p.businessID ++ "&slot=" ++ intStr p.slotNumber ++ "&iat=" ++ intStr p.issuedAt

/-- Model of `Payload.Sign`: fails on an empty secret, otherwise fills `hmac`
with the hex HMAC-SHA256 of the canonical string. -/
def Payload.sign (p : Payload) (secret : String) : Option Payload :=
  if secret = "" then none
  else some { p with hmac := hmacHex secret (canonicalString p) }

/-- Model of `Payload.Verify`: recompute the digest and compare. -/
def Payload.verify (p : Payload) (secret : String) : Except String Unit :=
  if p.hmac = "" then .error "payload not signed"
  else if secret = "" then .error "secret cannot be empty"
  else if hmacHex secret (canonicalString p) = p.hmac then .ok ()
  else .error "invalid hmac signature"

/-- Model of `Payload.Encode`: marshal to JSON, then base64url. -/
def Payload.encode (p : Payload) : String :=
  String.mk (base64encode ((marshalPayload p).map Char.toNat))

/-- The `tid` validation at the end of `qr.Decode`: `uuid.Parse` must accept. -/
def qrDecodeCheckTid (payload : Payload) : Except String Payload :=
  if uuidParseOk payload.ticketID then .ok payload
  else .error "invalid ticket ID format"

/-- The JSON stage of `qr.Decode` on the decoded bytes. -/
def qrDecodeJson (cs : List Char) : Except String Payload :=
  match unmarshalPayload cs with
  | none => .error "invalid payload JSON"
  | some payload => qrDecodeCheckTid payload

/-- Model of `qr.Decode`: base64url decode, JSON unmarshal, then validate that
`tid` parses as a UUID. `sid`, `bid` and the version are not validated. -/
def qrDecode (encoded : String) : Except String Payload :=
  match base64decode encoded.data with
  | none => .error "invalid base64 encoding"
  | some bytes => qrDecodeJson (bytes.map Char.ofNat)

/-- A list that cannot extend a number literal: empty or headed by a character
that is neither a digit nor `.`, `e`, `E`. -/
def numStop : List Char → Bool
  | [] => true
  | c :: _ => !(isDigitChar c || c == '.' || c == 'e' || c == 'E')

/-- The JSON value that `json.Marshal` of a payload denotes. -/
def payloadJson (p : Payload) : Json :=
  .obj [("v", .num p.version true), ("tid", .str p.ticketID), ("sid", .str p.serviceID),
    ("bid", .str p.businessID), ("slot", .num p.slotNumber true),
    ("iat", .num p.issuedAt true), ("hmac", .str p.hmac)]

/-! ### Round-trip of the whole codec -/
/-- Whether every character of a string is one ASCII byte. -/
def asciiString (s : String) : Bool := s.data.all (fun c => c.toNat < 128)

/-- Every character of the list is one ASCII byte. -/
abbrev asciiList (l : List Char) : Prop := ∀ c ∈ l, c.toNat < 128

/-! ### Error model (internal/apperror) -/
/-- Application error codes from internal/apperror. -/
inductive ErrCode where
  | badRequest
  | unauthorized
  | forbidden
  | notFound
  | conflict
  | internalServer
  | databaseError
  | validationError
  | unprocessable
deriving DecidableEq, Repr

/-- A Go error value as the core sees it: an `AppError` with a code and
message, or a raw driver/library error (such as pgx's no-rows error) that was
never wrapped. -/
inductive Err where
  | app (code : ErrCode) (message : String)
  | raw (message : String)
deriving DecidableEq, Repr

/-- Model of `apperror.IsNotFound`: only a wrapped `AppError` with the
NotFound code qualifies; raw driver errors never do. -/
def Err.isNotFound : Err → Bool
  | .app .notFound _ => true
  | _ => false

/-! ### Store rows (migrations/000001_init_schema.up.sql, internal/domain) -/
structure Business where
  id : String
  name : String
  email : String
  password : String
  role : String
  hmacKey : String
  createdAt : Int
  updatedAt : Int
deriving DecidableEq, Repr

structure Service where
  id : String
  businessID : String
  name : String
  totalSlots : Int
  createdAt : Int
  updatedAt : Int
deriving DecidableEq, Repr

structure Slot where
  id : String
  serviceID : String
  slotNumber : Int
  status : String
  createdAt : Int
  updatedAt : Int
deriving DecidableEq, Repr

structure Ticket where
  id : String
  serviceID : String
  slotID : String
  slotNumber : Int
  customerID : String
  status : String
  hmacDigest : String
  issuedAt : Int
  releasedAt : Option Int
  createdAt : Int
  updatedAt : Int
deriving DecidableEq, Repr

/-- The abstract Postgres store: row lists per table, a clock supplying
`NOW()` / `domain.NowTimestamp()`, a stream of `uuid.New()` results, and a
fault flag for the fallible ticket INSERT. -/
structure Store where
  businesses : List Business
  services : List Service
  slots : List Slot
  tickets : List Ticket
  now : Int
  uuids : Nat → String
  ticketInsertFails : Bool

/-! ### Repositories -/
/-- service_repo FindByID: no rows becomes apperror NotFound. -/
def findService (st : Store) (id : String) : Except Err Service :=
  match st.services.find? (fun s => s.id == id) with
  | some s => .ok s
  | none => .error (.app .notFound "service not found")

/-- business_repo FindByID returns the raw scan error when no row matches. -/
def findBusiness (st : Store) (id : String) : Except Err Business :=
  match st.businesses.find? (fun b => b.id == id) with
  | some b => .ok b
  | none => .error (.raw "no rows in result set")

/-- ticket_repo FindByID returns the raw scan error when no row matches. -/
def findTicketByID (st : Store) (id : String) : Except Err Ticket :=
  match st.tickets.find? (fun t => t.id == id) with
  | some t => .ok t
  | none => .error (.raw "no rows in result set")

/-- ticket_repo FindByHMAC returns the raw scan error when no row matches. -/
def findTicketByHMAC (st : Store) (digest : String) : Except Err Ticket :=
  match st.tickets.find? (fun t => t.hmacDigest == digest) with
  | some t => .ok t
  | none => .error (.raw "no rows in result set")

/-- The row `ORDER BY slot_number ASC LIMIT 1` selects: a minimal element,
ties resolved to the earlier row. -/
def minBySlotNumber : List Slot → Option Slot
  | [] => none
  | s :: rest =>
    match minBySlotNumber rest with
    | none => some s
    | some m => if s.slotNumber ≤ m.slotNumber then some s else some m

/-- slot_repo ClaimNextFreeSlot: select the lowest-numbered free slot of the
service, mark it occupied, and return the updated row; `Conflict` with
"no free slots available" when none is free. The function opens and commits
its own transaction, so the returned store is already committed. -/
def claimNextFreeSlot (st : Store) (serviceID : String) : (Except Err Slot) × Store :=
  match minBySlotNumber (st.slots.filter
      (fun s => s.serviceID == serviceID && s.status == "free")) with
  | none => (.error (.app .conflict "no free slots available"), st)
  | some sl =>
    (.ok { sl with status := "occupied", updatedAt := st.now },
     { st with slots := st.slots.map (fun s =>
        if s.id == sl.id then { s with status := "occupied", updatedAt := st.now } else s) })

/-- slot_repo UpdateStatus: UPDATE by id; zero rows affected is NotFound. -/
def slotUpdateStatus (st : Store) (id status : String) : (Except Err Unit) × Store :=
  if st.slots.any (fun s => s.id == id) then
    (.ok (), { st with slots := st.slots.map (fun s =>
      if s.id == id then { s with status := status, updatedAt := st.now } else s) })
  else (.error (.app .notFound "slot not found"), st)

/-- ticket_repo Create: the INSERT can fail at the driver level; on success
the row is appended with `created_at`/`updated_at` from `NOW()`. -/
def ticketCreate (st : Store) (t : Ticket) : (Except Err Unit) × Store :=
  if st.ticketInsertFails then (.error (.raw "ticket insert failed"), st)
  else (.ok (), { st with tickets :=
    st.tickets ++ [{ t with createdAt := st.now, updatedAt := st.now }] })

/-- ticket_repo UpdateStatus: sets the status, stamps `released_at = NOW()`
whenever the new status is 'released' (keeping it otherwise), and ignores how
many rows matched. -/
def ticketUpdateStatus (st : Store) (id status : String) : Store :=
  { st with tickets := st.tickets.map (fun t =>
    if t.id == id then
      { t with status := status,
               releasedAt := if status == "released" then some st.now else t.releasedAt,
               updatedAt := st.now }
    else t) }

/-! ### Use cases (internal/usecase/ticket_usecase.go, part_005 service usecase) -/
structure CheckInRequest where
  serviceID : String
  businessID : String

structure CheckInResponse where
  ticketID : String
  slotNumber : Int
  qrPayload : String
  issuedAt : Int
deriving DecidableEq, Repr

structure ScanRequest where
  qrPayload : String
  businessID : String

structure ScanResponse where
  slotNumber : Int
  serviceID : String
  status : String
  releasedAt : Option Int
deriving DecidableEq, Repr

structure CreateServiceRequest where
  name : String
  totalSlots : Int
  businessID : String

structure ServiceResponse where
  id : String
  businessID : String
  name : String
  totalSlots : Int
  createdAt : Int
  updatedAt : Int
deriving DecidableEq, Repr

/-- Model of `TicketUsecase.CheckIn`. Each repository call commits its own
effects; on a failure after the slot claim, the claim stays committed. -/
def checkIn (st : Store) (req : CheckInRequest) : (Except Err CheckInResponse) × Store :=
  match findService st req.serviceID with
  | .error e => (.error e, st)
  | .ok service =>
    if service.businessID ≠ req.businessID then
      (.error (.app .forbidden "service does not belong to this business"), st)
    else
      match findBusiness st req.businessID with
      | .error e => (.error e, st)
      | .ok business =>
        match claimNextFreeSlot st req.serviceID with
        | (.error e, st1) => (.error e, st1)
        | (.ok slot, st1) =>
          let payload := qrNew (st1.uuids 0) req.serviceID req.businessID slot.slotNumber st1.now
          match payload.sign business.hmacKey with
          | none => (.error (.app .internalServer "QR signing failed"), st1)
          | some signed =>
            let ticket : Ticket :=
              { id := signed.ticketID, serviceID := req.serviceID, slotID := slot.id,
                slotNumber := slot.slotNumber, customerID := "", status := "active",
                hmacDigest := signed.hmac, issuedAt := signed.issuedAt,
                releasedAt := none, createdAt := st1.now, updatedAt := st1.now }
            match ticketCreate st1 ticket with
            | (.error e, st2) => (.error e, st2)
            | (.ok _, st2) =>
              (.ok { ticketID := ticket.id, slotNumber := slot.slotNumber,
                     qrPayload := signed.encode, issuedAt := signed.issuedAt }, st2)

/-- Model of `TicketUsecase.Scan`: decode, tenancy check on `bid`, signature
verification, then lookup by digest; reads only, never mutates. The
`released_at` of the response is hard-coded nil in the source. -/
def scan (st : Store) (req : ScanRequest) : Except Err ScanResponse :=
  match qrDecode req.qrPayload with
  | .error _ => .error (.app .badRequest "invalid QR payload")
  | .ok payload =>
    if payload.businessID ≠ req.businessID then
      .error (.app .forbidden "QR code does not belong to this business")
    else
      match findBusiness st req.businessID with
      | .error e => .error e
      | .ok business =>
        match payload.verify business.hmacKey with
        | .error _ => .error (.app .badRequest "invalid QR signature")
        | .ok _ =>
          match findTicketByHMAC st payload.hmac with
          | .error e =>
            if e.isNotFound then .error (.app .badRequest "ticket not found")
            else .error e
          | .ok ticket =>
            .ok { slotNumber := ticket.slotNumber, serviceID := ticket.serviceID,
                  status := ticket.status, releasedAt := none }

/-- Model of `TicketUsecase.Release`: find the ticket, tenancy check through
its service, mark it released, then free its slot unless `slot_id` is the
empty string. -/
def release (st : Store) (ticketID businessID : String) : (Except Err Unit) × Store :=
  match findTicketByID st ticketID with
  | .error e => (.error e, st)
  | .ok ticket =>
    match findService st ticket.serviceID with
    | .error e => (.error e, st)
    | .ok service =>
      if service.businessID ≠ businessID then
        (.error (.app .forbidden "ticket does not belong to this business"), st)
      else
        let st1 := ticketUpdateStatus st ticketID "released"
        if ticket.slotID ≠ "" then
          match slotUpdateStatus st1 ticket.slotID "free" with
          | (.error e, st2) => (.error e, st2)
          | (.ok _, st2) => (.ok (), st2)
        else (.ok (), st1)

/-- Model of `ServiceUsecase.CreateService`: validate, check the business
exists, insert the service row, then batch-insert slots numbered 1..n. -/
def createService (st : Store) (req : CreateServiceRequest) :
    (Except Err ServiceResponse) × Store :=
  if req.name = "" ∨ req.totalSlots ≤ 0 then
    (.error (.app .validationError "name and total_slots (>0) are required"), st)
  else
    match findBusiness st req.businessID with
    | .error e => (.error e, st)
    | .ok _ =>
      let service : Service :=
        { id := st.uuids 0, businessID := req.businessID, name := req.name,
          totalSlots := req.totalSlots, createdAt := st.now, updatedAt := st.now }
      let newSlots : List Slot := (List.range req.totalSlots.toNat).map (fun idx =>
        { id := st.uuids (idx + 1), serviceID := service.id, slotNumber := (idx : Int) + 1,
          status := "free", createdAt := st.now, updatedAt := st.now })
      let st2 := { st with services := st.services ++ [service],
                           slots := st.slots ++ newSlots }
      (.ok { id := service.id, businessID := service.businessID, name := service.name,
             totalSlots := service.totalSlots, createdAt := service.createdAt,
             updatedAt := service.updatedAt }, st2)

/-! ### Concrete fixtures used by the claim theorems -/
def uuidGen : Nat → String := fun _ => "11111111-2222-3333-4444-555555555555"

def bizKeyed : Business :=
  { id := "b1", name := "B", email := "e", password := "p", role := "business",
    hmacKey := "secret-key", createdAt := 0, updatedAt := 0 }

def bizNoKey : Business := { bizKeyed with hmacKey := "" }

def svcOne : Service :=
  { id := "s1", businessID := "b1", name := "Cloakroom", totalSlots := 2,
    createdAt := 0, updatedAt := 0 }

def slotFree1 : Slot :=
  { id := "sl1", serviceID := "s1", slotNumber := 1, status := "free",
    createdAt := 0, updatedAt := 0 }

def slotFree2 : Slot :=
  { id := "sl2", serviceID := "s1", slotNumber := 2, status := "free",
    createdAt := 0, updatedAt := 0 }

/-- The unsigned fixture payload: v=1, the fixture ticket id, sid s1, bid b1,
slot 1, iat 1700000000. -/
def fixtureCanonical : Payload :=
  qrNew "11111111-2222-3333-4444-555555555555" "s1" "b1" 1 1700000000

/-- The digest Sign computes for the fixture payload under "secret-key"
(concretely 3995cd4f606b6483e8fbd74573fcae850371befbcb98e0d679cf22c4ce275fcd). -/
def fixtureDigest : String :=
  hmacHex "secret-key" (canonicalString fixtureCanonical)

/-- The signed fixture payload. -/
def fixturePayload : Payload := { fixtureCanonical with hmac := fixtureDigest }

/-- Whether the scan result is any error at all. -/
def isScanError : Except Err ScanResponse → Bool
  | .error _ => true
  | .ok _ => false

/-- Whether the scan result is an application error of the given kind. -/
def failsWithKind : Except Err ScanResponse → ErrCode → Bool
  | .error (.app c _), k => c == k
  | _, _ => false

def c1Store : Store :=
  { businesses := [bizNoKey], services := [svcOne], slots := [slotFree1],
    tickets := [], now := 1700000000, uuids := uuidGen, ticketInsertFails := false }

def c2Store : Store :=
  { businesses := [bizKeyed], services := [svcOne], slots := [slotFree1, slotFree2],
    tickets := [], now := 1700000000, uuids := uuidGen, ticketInsertFails := false }

def releasedTicket : Ticket :=
  { id := "11111111-2222-3333-4444-555555555555", serviceID := "s1", slotID := "sl1",
    slotNumber := 1, customerID := "", status := "released", hmacDigest := fixtureDigest,
    issuedAt := 1700000000, releasedAt := some 1700000100,
    createdAt := 1700000000, updatedAt := 1700000100 }

def c3Store : Store :=
  { businesses := [bizKeyed], services := [svcOne], slots := [slotFree1, slotFree2],
    tickets := [releasedTicket], now := 1700000200, uuids := uuidGen,
    ticketInsertFails := false }

def c4Store : Store :=
  { businesses := [bizKeyed], services := [svcOne],
    slots := [{ slotFree1 with status := "free" }, slotFree2],
    tickets := [{ releasedTicket with releasedAt := some 1700000000 }],
    now := 1700000500, uuids := uuidGen, ticketInsertFails := false }

def c8Store : Store :=
  { businesses := [bizKeyed], services := [svcOne], slots := [slotFree1, slotFree2],
    tickets := [], now := 1700000200, uuids := uuidGen, ticketInsertFails := false }

def noSlotTicket : Ticket := { releasedTicket with slotID := "", status := "active" }

def c10Store : Store :=
  { businesses := [bizKeyed], services := [svcOne], slots := [slotFree1, slotFree2],
    tickets := [noSlotTicket], now := 1700000300, uuids := uuidGen,
    ticketInsertFails := false }

/-- A payload with version 2 and a non-UUID sid that `Decode` accepts anyway. -/
def payloadV2 : Payload :=
  { version := 2, ticketID := "11111111-2222-3333-4444-555555555555",
    serviceID := "not-a-uuid!", businessID := "b1", slotNumber := 1,
    issuedAt := 0, hmac := "" }

/-- A well-formed foreign payload whose bid differs from the caller. -/
def foreignPayload : Payload :=
  { version := 1, ticketID := "11111111-2222-3333-4444-555555555555",
    serviceID := "s1", businessID := "b2", slotNumber := 1,
    issuedAt := 1700000000, hmac := "deadbeef" }

def c5EmptyStore : Store := { c2Store with slots := [] }

def c2Req : CheckInRequest := { serviceID := "s1", businessID := "b1" }

/-- The response the fixture CheckIn produces. -/
def c2Resp : CheckInResponse :=
  { ticketID := "11111111-2222-3333-4444-555555555555", slotNumber := 1,
    qrPayload := fixturePayload.encode, issuedAt := 1700000000 }

theorem b64Val_b64Char {n : Nat} (h : n < 64) : b64Val (b64Char n) = some n := by
  interval_cases n <;> decide

theorem b64Char_ne_pad {n : Nat} (h : n < 64) : b64Char n ≠ '=' := by
  interval_cases n <;> decide

/-- Round-trip: decoding an encoded byte list returns it exactly. -/
theorem base64decode_encode : ∀ (bs : List Nat), (∀ b ∈ bs, b < 256) →
    base64decode (base64encode bs) = some bs
  | [], _ => rfl
  | [b1], h => by
    have h1 : b1 < 256 := h b1 (by simp)
    have e1 : b1 / 4 < 64 := by omega
    have e2 : b1 % 4 * 16 < 64 := by omega
    simp [base64encode, base64decode, b64Val_b64Char e1, b64Val_b64Char e2]
    all_goals omega
  | [b1, b2], h => by
    have h1 : b1 < 256 := h b1 (by simp)
    have h2 : b2 < 256 := h b2 (by simp)
    have e1 : b1 / 4 < 64 := by omega
    have e2 : b1 % 4 * 16 + b2 / 16 < 64 := by omega
    have e3 : b2 % 16 * 4 < 64 := by omega
    simp [base64encode, base64decode, b64Val_b64Char e1, b64Val_b64Char e2,
      b64Val_b64Char e3, b64Char_ne_pad e3]
    all_goals omega
  | b1 :: b2 :: b3 :: b4 :: rest, h => by
    have h1 : b1 < 256 := h b1 (by simp)
    have h2 : b2 < 256 := h b2 (by simp)
    have h3 : b3 < 256 := h b3 (by simp)
    have e1 : b1 / 4 < 64 := by omega
    have e2 : b1 % 4 * 16 + b2 / 16 < 64 := by omega
    have e3 : b2 % 16 * 4 + b3 / 64 < 64 := by omega
    have e4 : b3 % 64 < 64 := by omega
    have ih := base64decode_encode (b4 :: rest) (fun b hb => h b (by simp at hb ⊢; tauto))
    simp [base64encode, base64decode, b64Val_b64Char e1, b64Val_b64Char e2,
      b64Val_b64Char e3, b64Val_b64Char e4, b64Char_ne_pad e3, b64Char_ne_pad e4, ih]
    all_goals omega
  | [b1, b2, b3], h => by
    have h1 : b1 < 256 := h b1 (by simp)
    have h2 : b2 < 256 := h b2 (by simp)
    have h3 : b3 < 256 := h b3 (by simp)
    have e1 : b1 / 4 < 64 := by omega
    have e2 : b1 % 4 * 16 + b2 / 16 < 64 := by omega
    have e3 : b2 % 16 * 4 + b3 / 64 < 64 := by omega
    have e4 : b3 % 64 < 64 := by omega
    simp [base64encode, base64decode, b64Val_b64Char e1, b64Val_b64Char e2,
      b64Val_b64Char e3, b64Val_b64Char e4, b64Char_ne_pad e3, b64Char_ne_pad e4]
    all_goals omega

/-! ### Round-trip lemmas: characters and decimal literals -/
theorem charOfNat_toNat {n : Nat} (h : n < 55296) : (Char.ofNat n).toNat = n := by
  unfold Char.ofNat
  rw [dif_pos (Or.inl h : Nat.isValidChar n)]
  unfold Char.ofNatAux Char.toNat
  simp [UInt32.toNat]

theorem charToNat_inj {c d : Char} (h : c.toNat = d.toNat) : c = d := by
  apply Char.ext
  unfold Char.toNat at h
  exact UInt32.ext h

theorem charOfNat_toNat_self (c : Char) : Char.ofNat c.toNat = c := by
  rcases c.valid with h | h
  · exact charToNat_inj (charOfNat_toNat h)
  · apply charToNat_inj
    unfold Char.ofNat
    rw [dif_pos (Or.inr h : Nat.isValidChar c.toNat)]
    unfold Char.ofNatAux Char.toNat
    simp [UInt32.toNat]

theorem natChars_ne_nil (n : Nat) : natChars n ≠ [] := by
  rw [natChars]
  split <;> simp

theorem digitChar_toNat (n : Nat) : (digitChar n).toNat = 48 + n % 10 := by
  have h : n % 10 < 10 := Nat.mod_lt _ (by omega)
  unfold digitChar
  rw [charOfNat_toNat (by omega)]

theorem natChars_all_digit (n : Nat) : ∀ c ∈ natChars n, isDigitChar c = true := by
  induction n using Nat.strong_induction_on with
  | _ n ih =>
    rw [natChars]
    split
    · intro c hc
      simp only [List.mem_singleton] at hc
      subst hc
      simp only [isDigitChar, digitChar_toNat]
      simp
      omega
    · intro c hc
      rw [List.mem_append] at hc
      rcases hc with h1 | h2
      · exact ih (n / 10) (Nat.div_lt_self (by omega) (by omega)) c h1
      · simp only [List.mem_singleton] at h2
        subst h2
        simp only [isDigitChar, digitChar_toNat]
        simp
        omega

theorem natChars_cons (m : Nat) : ∃ c t, natChars m = c :: t ∧ isDigitChar c = true ∧
    (1 ≤ m → c ≠ '0') := by
  induction m using Nat.strong_induction_on with
  | _ m ih =>
    rw [natChars]
    split
    · refine ⟨digitChar m, [], rfl, natChars_all_digit m _ (by rw [natChars]; simp_all), ?_⟩
      intro h1 he
      have h2 := congrArg Char.toNat he
      rw [digitChar_toNat] at h2
      have h0 : ('0' : Char).toNat = 48 := rfl
      omega
    · rename_i hm
      obtain ⟨c, t, hct, hdig, hz⟩ := ih (m / 10) (Nat.div_lt_self (by omega) (by omega))
      refine ⟨c, t ++ [digitChar m], by rw [hct]; simp, hdig, fun _ => hz (by omega)⟩

theorem natChars_no_leading_zero (m : Nat) :
    ¬(1 < (natChars m).length ∧ (natChars m).headD '0' = '0') := by
  rintro ⟨hlen, hhead⟩
  by_cases hm : m < 10
  · rw [natChars] at hlen
    simp [hm] at hlen
  · obtain ⟨c, t, hct, _, hz⟩ := natChars_cons m
    rw [hct] at hhead
    exact hz (by omega) hhead

theorem digitsToNat_natChars (m : Nat) : digitsToNat (natChars m) = m := by
  induction m using Nat.strong_induction_on with
  | _ m ih =>
    rw [natChars]
    split
    · simp only [digitsToNat, List.foldl_cons, List.foldl_nil, digitChar_toNat]
      omega
    · rename_i hm
      have hd := ih (m / 10) (Nat.div_lt_self (by omega) (by omega))
      simp only [digitsToNat] at hd ⊢
      rw [List.foldl_append, hd]
      simp only [List.foldl_cons, List.foldl_nil, digitChar_toNat]
      omega

theorem takeDigits_nil_of_numStop {cs : List Char} (h : numStop cs = true) :
    takeDigits cs = ([], cs) := by
  match cs with
  | [] => rfl
  | c :: t =>
    simp only [numStop, Bool.not_eq_eq_eq_not, Bool.not_true, Bool.or_eq_false_iff] at h
    simp [takeDigits, h.1.1.1]

theorem takeDigits_chain {ds rest : List Char} (hds : ∀ c ∈ ds, isDigitChar c = true)
    (hrem : takeDigits rest = ([], rest)) : takeDigits (ds ++ rest) = (ds, rest) := by
  induction ds with
  | nil =>
    simpa using hrem
  | cons c t ih =>
    have hdigc : isDigitChar c = true := hds c (List.mem_cons_self c t)
    have htail := ih (fun x hx => hds x (List.mem_cons_of_mem c hx))
    simp [takeDigits, hdigc, htail]

theorem digit_ne {c : Char} (h : isDigitChar c = true) {d : Char}
    (hd : d.toNat < 48 ∨ 57 < d.toNat) : c ≠ d := by
  intro he
  subst he
  simp [isDigitChar] at h
  omega

theorem digit_not_ws {c : Char} (h : isDigitChar c = true) : isWsChar c = false := by
  simp only [isWsChar]
  have h1 := digit_ne h (d := ' ') (by left; decide)
  have h2 := digit_ne h (d := '\t') (by left; decide)
  have h3 := digit_ne h (d := '\n') (by left; decide)
  have h4 := digit_ne h (d := '\r') (by left; decide)
  simp [h1, h2, h3, h4]

theorem numStop_facts {c : Char} {t : List Char} (h : numStop (c :: t) = true) :
    isDigitChar c = false ∧ c ≠ '.' ∧ c ≠ 'e' ∧ c ≠ 'E' := by
  simp only [numStop, Bool.not_eq_eq_eq_not, Bool.not_true, Bool.or_eq_false_iff,
    beq_eq_false_iff_ne] at h
  exact ⟨h.1.1.1, h.1.1.2, h.1.2, h.2⟩

theorem parseNumTail_stop (neg : Bool) (ds : List Char) {cs : List Char}
    (h : numStop cs = true) : parseNumTail neg ds cs = some (.num (mkIntLit neg ds) true, cs) := by
  match cs, h with
  | [], _ => rfl
  | c :: t, h =>
    obtain ⟨_, hdot, he, hE⟩ := numStop_facts h
    rw [parseNumTail.eq_def]
    simp [hdot, he, hE]

theorem mkIntLit_true {i : Int} (hi : i < 0) : mkIntLit true (natChars i.natAbs) = i := by
  unfold mkIntLit
  rw [digitsToNat_natChars, if_pos rfl, Int.ofNat_natAbs_of_nonpos (by omega)]
  omega

theorem mkIntLit_false {i : Int} (hi : ¬i < 0) : mkIntLit false (natChars i.natAbs) = i := by
  unfold mkIntLit
  rw [digitsToNat_natChars, if_neg (by simp), Int.natAbs_of_nonneg (by omega)]

/-- Number codec round-trip: parsing a rendered integer stops at the delimiter
and recovers the integer, flagged as a plain integer literal. -/
theorem parseNumber_intChars (i : Int) (rest : List Char) (hr : numStop rest = true) :
    parseNumber (intChars i ++ rest) = some (.num i true, rest) := by
  have htd : takeDigits (natChars i.natAbs ++ rest) = (natChars i.natAbs, rest) :=
    takeDigits_chain (natChars_all_digit _) (takeDigits_nil_of_numStop hr)
  obtain ⟨c0, t0, hct, hdig, hz0⟩ := natChars_cons i.natAbs
  have hguard : ¬(1 < (c0 :: t0).length ∧ (c0 :: t0).headD '0' = '0') := by
    rw [← hct]
    exact natChars_no_leading_zero i.natAbs
  rw [hct] at htd
  have hguard2 : ¬(1 < (c0 :: t0).length ∧ c0 = '0') := by simpa using hguard
  by_cases hi : i < 0
  · have harg : intChars i ++ rest = '-' :: (c0 :: t0 ++ rest) := by
      simp [intChars, hi, hct]
    rw [harg]
    simp only [parseNumber, List.headD_cons, List.tail_cons, beq_self_eq_true,
      eq_self_iff_true, if_true, htd]
    rw [if_neg (by simp), if_neg hguard2, parseNumTail_stop _ _ hr, ← hct, mkIntLit_true hi]
  · have hminus : c0 ≠ '-' := digit_ne hdig (by left; decide)
    have hne : (c0 == '-') = false := by simp [hminus]
    have harg : intChars i ++ rest = c0 :: (t0 ++ rest) := by
      simp [intChars, hi, hct]
    rw [harg]
    simp only [parseNumber, List.headD_cons, List.tail_cons, hne, Bool.false_eq_true,
      if_false]
    rw [show c0 :: (t0 ++ rest) = (c0 :: t0) ++ rest from rfl, htd]
    dsimp only [List.headD_cons]
    rw [if_neg (by simp), if_neg hguard2, parseNumTail_stop _ _ hr, ← hct, mkIntLit_false hi]

/-! ### Round-trip lemmas: JSON strings -/
theorem hexValC_hexDigit {k : Nat} (h : k < 16) : hexValC (hexDigit k) = some k := by
  interval_cases k <;> decide

/-- Parsing one escaped character undoes the escaping. -/
theorem parseStringBody_escape (c : Char) (acc rest : List Char) :
    parseStringBody acc (jsonEscapeChar c ++ rest) = parseStringBody (c :: acc) rest := by
  unfold jsonEscapeChar
  split_ifs with h1 h2 h3 h4 h5 h6 h7 h8 h9
  · subst h1; rfl
  · subst h2; rfl
  · subst h3; rfl
  · subst h4; rfl
  · subst h5; rfl
  · subst h6; rfl
  · subst h7; rfl
  · subst h8; rfl
  · have hhi := hexValC_hexDigit (show c.toNat / 16 < 16 by omega)
    have hlo := hexValC_hexDigit (show c.toNat % 16 < 16 by omega)
    simp only [List.cons_append, parseStringBody, hhi, hlo,
      (show hexValC '0' = some 0 from rfl)]
    rw [show ((0 * 16 + 0) * 16 + c.toNat / 16) * 16 + c.toNat % 16 = c.toNat by omega,
      charOfNat_toNat_self]
    rfl
  · rw [show [c] ++ rest = c :: rest from rfl]
    rw [parseStringBody.eq_def]
    simp [h1, h2, h9]

/-- Parsing an escaped run stops exactly at the closing quote. -/
theorem parseStringBody_flatMap (cs : List Char) : ∀ (acc rest : List Char),
    parseStringBody acc (cs.flatMap jsonEscapeChar ++ '"' :: rest) =
      some (String.mk (acc.reverse ++ cs), rest) := by
  induction cs with
  | nil => intro acc rest; simp [parseStringBody]
  | cons c cs ih =>
    intro acc rest
    rw [List.flatMap_cons, List.append_assoc, parseStringBody_escape, ih]
    simp

/-- String codec round-trip: parsing a rendered string body recovers it. -/
theorem parseStringBody_render (s : String) (rest : List Char) :
    parseStringBody [] (s.data.flatMap jsonEscapeChar ++ '"' :: rest) = some (s, rest) := by
  rw [parseStringBody_flatMap]
  cases s
  rfl

theorem skipWs_cons {c : Char} (h : isWsChar c = false) (t : List Char) :
    skipWs (c :: t) = c :: t := by
  simp [skipWs, h]

theorem skipWs_intChars (i : Int) (rest : List Char) :
    skipWs (intChars i ++ rest) = intChars i ++ rest := by
  by_cases hi : i < 0
  · rw [show intChars i ++ rest = '-' :: (natChars i.natAbs ++ rest) by simp [intChars, hi]]
    exact skipWs_cons (by decide) _
  · obtain ⟨c0, t0, hct, hdig, _⟩ := natChars_cons i.natAbs
    rw [show intChars i ++ rest = c0 :: (t0 ++ rest) by simp [intChars, hi, hct]]
    exact skipWs_cons (digit_not_ws hdig) _

/-- One-step unfolding of `parseValue` at successor fuel. -/
theorem parseValue_succ (fuel : Nat) (cs : List Char) :
    parseValue (fuel + 1) cs = parseValueCore fuel (skipWs cs) := by
  rw [parseValue]

/-- One-step unfolding of `parseMembers` at successor fuel. -/
theorem parseMembers_succ (fuel : Nat) (cs : List Char) :
    parseMembers (fuel + 1) cs = parseMembersKey fuel (skipWs cs) := by
  rw [parseMembers]

/-- Dispatch of the value parser at a leading minus sign. -/
theorem parseValueCore_minus (fuel : Nat) (cs : List Char) :
    parseValueCore fuel ('-' :: cs) = parseNumber ('-' :: cs) := by
  simp [parseValueCore]

/-- Dispatch of the value parser at an opening quote. -/
theorem parseValueCore_quote (fuel : Nat) (cs : List Char) :
    parseValueCore fuel ('"' :: cs) =
      (parseStringBody [] cs).map (fun sr => (.str sr.1, sr.2)) := by
  simp [parseValueCore]

/-- A parse step on a rendered integer at any successor fuel. -/
theorem parseValue_intChars (fuel : Nat) (i : Int) (rest : List Char)
    (hr : numStop rest = true) :
    parseValue (fuel + 1) (intChars i ++ rest) = some (.num i true, rest) := by
  rw [parseValue_succ, skipWs_intChars]
  by_cases hi : i < 0
  · rw [show intChars i ++ rest = '-' :: (natChars i.natAbs ++ rest) by simp [intChars, hi]]
    rw [parseValueCore_minus]
    rw [show '-' :: (natChars i.natAbs ++ rest) = intChars i ++ rest by simp [intChars, hi]]
    rw [parseNumber_intChars i rest hr]
  · obtain ⟨c0, t0, hct, hdig, _⟩ := natChars_cons i.natAbs
    have hn := digit_ne hdig (d := 'n') (by right; decide)
    have ht := digit_ne hdig (d := 't') (by right; decide)
    have hf := digit_ne hdig (d := 'f') (by right; decide)
    have hq := digit_ne hdig (d := '"') (by left; decide)
    have hbk := digit_ne hdig (d := '[') (by right; decide)
    have hbc := digit_ne hdig (d := '{') (by right; decide)
    rw [show intChars i ++ rest = c0 :: (t0 ++ rest) by simp [intChars, hi, hct]]
    simp [parseValueCore, hn, ht, hf, hq, hbk, hbc, hdig]
    rw [show c0 :: (t0 ++ rest) = intChars i ++ rest by simp [intChars, hi, hct]]
    rw [parseNumber_intChars i rest hr]

/-- A parse step on a rendered string literal at any successor fuel. -/
theorem parseValue_strLit (fuel : Nat) (s : String) (rest : List Char) :
    parseValue (fuel + 1) ('"' :: (s.data.flatMap jsonEscapeChar ++ ('"' :: rest))) =
      some (.str s, rest) := by
  rw [parseValue_succ, skipWs_cons (by decide), parseValueCore_quote, parseStringBody_render]
  rfl

theorem parseMembersKey_quote (fuel : Nat) (r : List Char) :
    parseMembersKey fuel ('"' :: r) =
      (parseStringBody [] r).bind (fun kr => parseMemberColon fuel kr.1 (skipWs kr.2)) := by
  simp [parseMembersKey]

theorem parseMemberColon_colon (fuel : Nat) (k : String) (r2 : List Char) :
    parseMemberColon fuel k (':' :: r2) =
      (parseValue fuel (skipWs r2)).bind (fun vr => parseMemberMore fuel k vr.1 (skipWs vr.2)) := by
  simp [parseMemberColon]

theorem parseMemberMore_comma (fuel : Nat) (k : String) (v : Json) (r4 : List Char) :
    parseMemberMore fuel k v (',' :: r4) =
      (parseMembers fuel r4).map (fun mr => ((k, v) :: mr.1, mr.2)) := by
  simp [parseMemberMore]

theorem parseMemberMore_brace (fuel : Nat) (k : String) (v : Json) (r4 : List Char) :
    parseMemberMore fuel k v ('}' :: r4) = some ([(k, v)], r4) := by
  simp [parseMemberMore]

/-- One object member carrying an integer value, followed by a comma. -/
theorem parseMembers_step_num (fuel : Nat) (k : String) (i : Int) (more : List Char) :
    parseMembers (fuel + 2)
        ('"' :: (k.data.flatMap jsonEscapeChar ++ '"' :: ':' :: (intChars i ++ ',' :: more))) =
      (parseMembers (fuel + 1) more).map (fun mr => ((k, Json.num i true) :: mr.1, mr.2)) := by
  rw [parseMembers_succ, skipWs_cons (by decide), parseMembersKey_quote, parseStringBody_render,
    Option.some_bind]
  simp only []
  rw [skipWs_cons (by decide), parseMemberColon_colon, skipWs_intChars,
    parseValue_intChars _ i (',' :: more) rfl, Option.some_bind]
  simp only []
  rw [skipWs_cons (by decide), parseMemberMore_comma]

/-- One object member carrying a string value, followed by a comma. -/
theorem parseMembers_step_str (fuel : Nat) (k s : String) (more : List Char) :
    parseMembers (fuel + 2)
        ('"' :: (k.data.flatMap jsonEscapeChar ++ '"' :: ':' ::
          ('"' :: (s.data.flatMap jsonEscapeChar ++ '"' :: ',' :: more)))) =
      (parseMembers (fuel + 1) more).map (fun mr => ((k, Json.str s) :: mr.1, mr.2)) := by
  rw [parseMembers_succ, skipWs_cons (by decide), parseMembersKey_quote, parseStringBody_render,
    Option.some_bind]
  simp only []
  rw [skipWs_cons (by decide), parseMemberColon_colon, skipWs_cons (by decide),
    parseValue_strLit, Option.some_bind]
  simp only []
  rw [skipWs_cons (by decide), parseMemberMore_comma]

/-- The final object member, a string value closed by the brace. -/
theorem parseMembers_last_str (fuel : Nat) (k s : String) (rest : List Char) :
    parseMembers (fuel + 2)
        ('"' :: (k.data.flatMap jsonEscapeChar ++ '"' :: ':' ::
          ('"' :: (s.data.flatMap jsonEscapeChar ++ '"' :: '}' :: rest)))) =
      some ([(k, Json.str s)], rest) := by
  rw [parseMembers_succ, skipWs_cons (by decide), parseMembersKey_quote, parseStringBody_render,
    Option.some_bind]
  simp only []
  rw [skipWs_cons (by decide), parseMemberColon_colon, skipWs_cons (by decide),
    parseValue_strLit, Option.some_bind]
  simp only []
  rw [skipWs_cons (by decide), parseMemberMore_brace]

theorem parseValueCore_brace (fuel : Nat) (r : List Char) :
    parseValueCore fuel ('{' :: r) = parseObjBody fuel (skipWs r) := by
  simp [parseValueCore]

theorem parseObjBody_quote (fuel : Nat) (r : List Char) :
    parseObjBody fuel ('"' :: r) =
      (parseMembers fuel ('"' :: r)).map (fun mr => (.obj mr.1, mr.2)) := by
  simp [parseObjBody]

/-- Parsing the rendered payload object at any sufficient fuel yields exactly
the seven members in declaration order and consumes the whole input. -/
theorem parseValue_marshal (p : Payload) (fuel : Nat) :
    parseValue (fuel + 9) (marshalPayload p) = some (payloadJson p, []) := by
  rw [show (fuel + 9) = (fuel + 8) + 1 from rfl, parseValue_succ]
  simp only [marshalPayload, jsonStrChars, List.cons_append, List.append_assoc,
    List.singleton_append, List.nil_append]
  rw [skipWs_cons (by decide), parseValueCore_brace, skipWs_cons (by decide),
    parseObjBody_quote]
  rw [parseMembers_step_num]
  rw [parseMembers_step_str]
  rw [parseMembers_step_str]
  rw [parseMembers_step_str]
  rw [parseMembers_step_num]
  rw [parseMembers_step_num]
  rw [parseMembers_last_str]
  simp [payloadJson]

theorem asciiList_nil : asciiList [] := by intro c hc; cases hc

theorem asciiList_cons {c : Char} {l : List Char} (hc : c.toNat < 128) (hl : asciiList l) :
    asciiList (c :: l) := by
  intro d hd
  rcases List.mem_cons.mp hd with rfl | hd
  · exact hc
  · exact hl _ hd

theorem asciiList_append {l1 l2 : List Char} (h1 : asciiList l1) (h2 : asciiList l2) :
    asciiList (l1 ++ l2) := by
  intro d hd
  rcases List.mem_append.mp hd with h | h
  · exact h1 _ h
  · exact h2 _ h

theorem asciiList_strData {s : String} (h : asciiString s = true) : asciiList s.data := by
  intro c hc
  simpa using List.all_eq_true.mp h c hc

theorem hexDigit_toNat_lt (n : Nat) (h : n < 16) : (hexDigit n).toNat < 128 := by
  unfold hexDigit
  split
  · rw [charOfNat_toNat (by omega)]; omega
  · rw [charOfNat_toNat (by omega)]; omega

theorem jsonEscapeChar_ascii {c : Char} (hc : c.toNat < 128) :
    asciiList (jsonEscapeChar c) := by
  unfold jsonEscapeChar
  split_ifs with h1 h2 h3 h4 h5 h6 h7 h8 h9
  · decide
  · decide
  · decide
  · decide
  · decide
  · decide
  · decide
  · decide
  · intro d hd
    rcases List.mem_cons.mp hd with rfl | hd
    · decide
    rcases List.mem_cons.mp hd with rfl | hd
    · decide
    rcases List.mem_cons.mp hd with rfl | hd
    · decide
    rcases List.mem_cons.mp hd with rfl | hd
    · decide
    rcases List.mem_cons.mp hd with rfl | hd
    · exact hexDigit_toNat_lt (c.toNat / 16) (by omega)
    rcases List.mem_cons.mp hd with rfl | hd
    · exact hexDigit_toNat_lt (c.toNat % 16) (by omega)
    cases hd
  · intro d hd
    rcases List.mem_cons.mp hd with rfl | hd
    · exact hc
    cases hd

theorem asciiList_escape {l : List Char} (h : asciiList l) :
    asciiList (l.flatMap jsonEscapeChar) := by
  intro d hd
  rcases List.mem_flatMap.mp hd with ⟨c, hc, hdc⟩
  exact jsonEscapeChar_ascii (h c hc) d hdc

theorem asciiList_jsonStr {s : String} (h : asciiList s.data) : asciiList (jsonStrChars s) := by
  unfold jsonStrChars
  exact asciiList_cons (by decide) (asciiList_append (asciiList_escape h)
    (asciiList_cons (by decide) asciiList_nil))

theorem asciiList_intChars (i : Int) : asciiList (intChars i) := by
  unfold intChars
  apply asciiList_append
  · split
    · exact asciiList_cons (by decide) asciiList_nil
    · exact asciiList_nil
  · intro c hc
    have := natChars_all_digit i.natAbs c hc
    simp [isDigitChar] at this
    omega

/-- All characters of a marshalled payload with ASCII string fields are ASCII. -/
theorem marshal_ascii (p : Payload)
    (h1 : asciiString p.ticketID = true) (h2 : asciiString p.serviceID = true)
    (h3 : asciiString p.businessID = true) (h4 : asciiString p.hmac = true) :
    asciiList (marshalPayload p) := by
  unfold marshalPayload
  apply asciiList_cons (by decide)
  apply asciiList_append (asciiList_jsonStr (by decide))
  apply asciiList_cons (by decide)
  apply asciiList_append (asciiList_intChars _)
  apply asciiList_cons (by decide)
  apply asciiList_append (asciiList_jsonStr (by decide))
  apply asciiList_cons (by decide)
  apply asciiList_append (asciiList_jsonStr (asciiList_strData h1))
  apply asciiList_cons (by decide)
  apply asciiList_append (asciiList_jsonStr (by decide))
  apply asciiList_cons (by decide)
  apply asciiList_append (asciiList_jsonStr (asciiList_strData h2))
  apply asciiList_cons (by decide)
  apply asciiList_append (asciiList_jsonStr (by decide))
  apply asciiList_cons (by decide)
  apply asciiList_append (asciiList_jsonStr (asciiList_strData h3))
  apply asciiList_cons (by decide)
  apply asciiList_append (asciiList_jsonStr (by decide))
  apply asciiList_cons (by decide)
  apply asciiList_append (asciiList_intChars _)
  apply asciiList_cons (by decide)
  apply asciiList_append (asciiList_jsonStr (by decide))
  apply asciiList_cons (by decide)
  apply asciiList_append (asciiList_intChars _)
  apply asciiList_cons (by decide)
  apply asciiList_append (asciiList_jsonStr (by decide))
  apply asciiList_cons (by decide)
  apply asciiList_append (asciiList_jsonStr (asciiList_strData h4))
  exact asciiList_cons (by decide) asciiList_nil

/-- Populating the payload struct from its own marshalled JSON value is exact. -/
theorem payloadFromJson_payloadJson (p : Payload) :
    payloadFromJson (payloadJson p) = some p := rfl

/-- json.Unmarshal of json.Marshal of a payload recovers it exactly. -/
theorem unmarshalPayload_marshal (p : Payload) :
    unmarshalPayload (marshalPayload p) = some p := by
  have hlen : 8 ≤ (marshalPayload p).length := by
    simp [marshalPayload, jsonStrChars]
    omega
  obtain ⟨k, hk⟩ : ∃ k, (marshalPayload p).length + 1 = k + 9 :=
    ⟨(marshalPayload p).length - 8, by omega⟩
  unfold unmarshalPayload
  rw [hk, parseValue_marshal]
  exact payloadFromJson_payloadJson p

theorem map_ofNat_toNat (cs : List Char) : (cs.map Char.toNat).map Char.ofNat = cs := by
  rw [List.map_map]
  have : Char.ofNat ∘ Char.toNat = id := by
    funext c
    exact charOfNat_toNat_self c
  rw [this, List.map_id]

/-- Codec round-trip: decoding an encoded payload with ASCII string fields and
a UUID ticket id recovers the payload. -/
theorem qrDecode_encode (p : Payload)
    (h1 : asciiString p.ticketID = true) (h2 : asciiString p.serviceID = true)
    (h3 : asciiString p.businessID = true) (h4 : asciiString p.hmac = true)
    (huuid : uuidParseOk p.ticketID = true) :
    qrDecode p.encode = .ok p := by
  have hascii := marshal_ascii p h1 h2 h3 h4
  have hbytes : ∀ b ∈ (marshalPayload p).map Char.toNat, b < 256 := by
    intro b hb
    rcases List.mem_map.mp hb with ⟨c, hc, rfl⟩
    have := hascii c hc
    omega
  unfold Payload.encode qrDecode
  rw [show (String.mk (base64encode ((marshalPayload p).map Char.toNat))).data
      = base64encode ((marshalPayload p).map Char.toNat) from rfl]
  rw [base64decode_encode _ hbytes]
  show qrDecodeJson (((marshalPayload p).map Char.toNat).map Char.ofNat) = .ok p
  rw [map_ofNat_toNat]
  unfold qrDecodeJson
  rw [unmarshalPayload_marshal]
  show qrDecodeCheckTid p = .ok p
  unfold qrDecodeCheckTid
  rw [if_pos huuid]

/-! ### Properties of the digest and of slot selection -/
theorem sha256Round_length (hs : List Nat) (kw : Nat × Nat) :
    (sha256Round hs kw).length = hs.length := by
  unfold sha256Round
  split
  · rfl
  · rfl

theorem foldl_sha256Round_length (l : List (Nat × Nat)) (hs : List Nat) :
    (l.foldl sha256Round hs).length = hs.length := by
  induction l generalizing hs with
  | nil => rfl
  | cons x xs ih => rw [List.foldl_cons, ih, sha256Round_length]

theorem sha256Compress_length {hs : List Nat} (h : hs.length = 8) (block : List Nat) :
    (sha256Compress hs block).length = 8 := by
  unfold sha256Compress
  rw [List.length_zipWith, foldl_sha256Round_length, h]
  simp

theorem foldl_sha256Compress_length (blocks : List (List Nat)) {hs : List Nat}
    (h : hs.length = 8) : (blocks.foldl sha256Compress hs).length = 8 := by
  induction blocks generalizing hs with
  | nil => exact h
  | cons b bs ih => rw [List.foldl_cons]; exact ih (sha256Compress_length h b)

theorem sha256_length (msg : List Nat) : (sha256 msg).length = 32 := by
  unfold sha256
  rw [List.length_flatMap]
  have h8 := @foldl_sha256Compress_length
    (chunks64 (sha256Pad msg).length (sha256Pad msg)) sha256H0 rfl
  generalize (chunks64 (sha256Pad msg).length (sha256Pad msg)).foldl
    sha256Compress sha256H0 = hw at h8
  match hw, h8 with
  | [a1, a2, a3, a4, a5, a6, a7, a8], _ => rfl

theorem bytesToHex_ne_empty {bs : List Nat} (h : bs ≠ []) : bytesToHex bs ≠ "" := by
  match bs, h with
  | b :: rest, _ =>
    unfold bytesToHex
    intro he
    have h2 := congrArg String.data he
    simp at h2

theorem hmacHex_ne_empty (secret msg : String) : hmacHex secret msg ≠ "" := by
  unfold hmacHex
  apply bytesToHex_ne_empty
  unfold hmacSha256
  intro h
  have h2 := congrArg List.length h
  rw [sha256_length] at h2
  simp at h2

/-- Hex digit characters are ASCII. -/
theorem bytesToHex_ascii (bs : List Nat) : asciiString (bytesToHex bs) = true := by
  unfold bytesToHex asciiString
  rw [List.all_eq_true]
  intro c hc
  simp only [List.mem_flatMap] at hc
  obtain ⟨b, _, hcb⟩ := hc
  rcases List.mem_cons.mp hcb with rfl | hcb
  · simp
    exact Nat.lt_of_lt_of_le (hexDigit_toNat_lt _ (Nat.mod_lt _ (by omega))) (by omega)
  rcases List.mem_cons.mp hcb with rfl | hcb
  · simp
    exact Nat.lt_of_lt_of_le (hexDigit_toNat_lt _ (Nat.mod_lt _ (by omega))) (by omega)
  cases hcb

theorem minBySlotNumber_none {l : List Slot} (h : minBySlotNumber l = none) : l = [] := by
  match l, h with
  | [], _ => rfl
  | s :: rest, h =>
    unfold minBySlotNumber at h
    revert h
    split
    · intro h; cases h
    · intro h; split at h <;> cases h

theorem minBySlotNumber_mem {l : List Slot} {m : Slot} (h : minBySlotNumber l = some m) :
    m ∈ l := by
  induction l generalizing m with
  | nil => cases h
  | cons s rest ih =>
    unfold minBySlotNumber at h
    revert h
    split
    · intro h; cases h; exact List.mem_cons_self _ _
    · rename_i m0 hm0
      intro h
      split at h
      · cases h; exact List.mem_cons_self _ _
      · cases h; exact List.mem_cons_of_mem _ (ih hm0)

theorem minBySlotNumber_min {l : List Slot} {m : Slot} (h : minBySlotNumber l = some m) :
    ∀ s ∈ l, m.slotNumber ≤ s.slotNumber := by
  induction l generalizing m with
  | nil => cases h
  | cons s rest ih =>
    unfold minBySlotNumber at h
    revert h
    split
    · rename_i hm0
      intro h
      cases h
      intro x hx
      rcases List.mem_cons.mp hx with rfl | hx
      · omega
      · rw [minBySlotNumber_none hm0] at hx
        cases hx
    · rename_i m0 hm0
      intro h
      split at h
      · rename_i hle
        cases h
        intro x hx
        rcases List.mem_cons.mp hx with rfl | hx
        · omega
        · exact le_trans hle (ih hm0 x hx)
      · rename_i hle
        cases h
        intro x hx
        rcases List.mem_cons.mp hx with rfl | hx
        · omega
        · exact ih hm0 x hx

/-! ### Further support lemmas -/
theorem hmacHex_ascii (secret msg : String) : asciiString (hmacHex secret msg) = true := by
  unfold hmacHex
  exact bytesToHex_ascii _

/-- FindByHMAC on a store whose first ticket carries the digest. -/
theorem findTicketByHMAC_head (st : Store) (t : Ticket) (rest : List Ticket)
    (h : st.tickets = t :: rest) :
    findTicketByHMAC st t.hmacDigest = .ok t := by
  unfold findTicketByHMAC
  rw [h]
  simp [List.find?]

theorem claimNextFreeSlot_uuids (st : Store) (sid : String) :
    ((claimNextFreeSlot st sid).2).uuids = st.uuids := by
  unfold claimNextFreeSlot
  split <;> rfl

theorem claimNextFreeSlot_now (st : Store) (sid : String) :
    ((claimNextFreeSlot st sid).2).now = st.now := by
  unfold claimNextFreeSlot
  split <;> rfl

/-- The canonical signing string ignores the hmac field. -/
theorem canonicalString_set_hmac (p : Payload) (d : String) :
    canonicalString { p with hmac := d } = canonicalString p := rfl

/-- A payload just signed with a non-empty secret verifies under it. -/
theorem verify_sign (p : Payload) (secret : String) (hK : secret ≠ "") (signed : Payload)
    (h : p.sign secret = some signed) : signed.verify secret = .ok () := by
  unfold Payload.sign at h
  rw [if_neg hK] at h
  injection h with h
  subst h
  have hcond : hmacHex secret
      (canonicalString { p with hmac := hmacHex secret (canonicalString p) })
      = ({ p with hmac := hmacHex secret (canonicalString p) } : Payload).hmac := by
    rw [canonicalString_set_hmac]
  unfold Payload.verify
  rw [if_neg (show ¬({ p with hmac := hmacHex secret (canonicalString p) } : Payload).hmac = ""
        from hmacHex_ne_empty _ _),
      if_neg hK, if_pos hcond]

/-- Scan on the happy path: decoded, tenant-matching, verified payload whose
digest is found returns the ticket's slot/service/status with a nil
released_at. -/
theorem scan_ok_shape (st : Store) (req : ScanRequest) (p : Payload) (b : Business) (t : Ticket)
    (hdec : qrDecode req.qrPayload = .ok p)
    (hbid : p.businessID = req.businessID)
    (hb : findBusiness st req.businessID = .ok b)
    (hver : p.verify b.hmacKey = .ok ())
    (hfind : findTicketByHMAC st p.hmac = .ok t) :
    scan st req = .ok { slotNumber := t.slotNumber, serviceID := t.serviceID,
                        status := t.status, releasedAt := none } := by
  unfold scan
  simp only [hdec]
  rw [if_neg (not_not_intro hbid)]
  simp only [hb, hver, hfind]

/-- Scan when the digest matches no ticket: the raw pgx error propagates. -/
theorem scan_raw_shape (st : Store) (req : ScanRequest) (p : Payload) (b : Business)
    (hdec : qrDecode req.qrPayload = .ok p)
    (hbid : p.businessID = req.businessID)
    (hb : findBusiness st req.businessID = .ok b)
    (hver : p.verify b.hmacKey = .ok ())
    (habs : st.tickets.find? (fun t => t.hmacDigest == p.hmac) = none) :
    scan st req = .error (.raw "no rows in result set") := by
  unfold scan
  simp only [hdec]
  rw [if_neg (not_not_intro hbid)]
  have hfind : findTicketByHMAC st p.hmac = .error (.raw "no rows in result set") := by
    unfold findTicketByHMAC
    simp only [habs]
  simp only [hb, hver, hfind]
  rfl

/-! ### Claim theorems -/
/-- C1: refuted as stated — CheckIn is not failure-atomic. In a store whose
business has an empty HMAC key, CheckIn fails after the slot claim (signing
fails), yet the claimed slot is left 'occupied' in the resulting store, not
returned to 'free' (no ticket exists, but the slot effect is committed). -/
theorem c1_checkin_not_failure_atomic :
    (checkIn c1Store { serviceID := "s1", businessID := "b1" }).1
      = .error (.app .internalServer "QR signing failed")
    ∧ ((checkIn c1Store { serviceID := "s1", businessID := "b1" }).2).slots
      = [{ slotFree1 with status := "occupied", updatedAt := 1700000000 }]
    ∧ ((checkIn c1Store { serviceID := "s1", businessID := "b1" }).2).tickets = [] :=
  ⟨rfl, rfl, rfl⟩

/-- C7: a Scan whose decoded payload carries a bid different from the caller's
business id fails with Forbidden, before any signature consideration. -/
theorem c7_foreign_qr_forbidden (st : Store) (req : ScanRequest) (p : Payload)
    (hdec : qrDecode req.qrPayload = .ok p)
    (hbid : p.businessID ≠ req.businessID) :
    scan st req = .error (.app .forbidden "QR code does not belong to this business") := by
  unfold scan
  simp only [hdec]
  rw [if_pos hbid]

theorem c7_witness :
    qrDecode foreignPayload.encode = .ok foreignPayload
    ∧ foreignPayload.businessID ≠ "b1"
    ∧ scan c2Store { qrPayload := foreignPayload.encode, businessID := "b1" }
        = .error (.app .forbidden "QR code does not belong to this business") :=
  ⟨qrDecode_encode foreignPayload (by decide) (by decide) (by decide) (by decide) (by decide),
   by decide,
   c7_foreign_qr_forbidden c2Store { qrPayload := foreignPayload.encode, businessID := "b1" }
     foreignPayload
     (qrDecode_encode foreignPayload (by decide) (by decide) (by decide) (by decide) (by decide))
     (by decide)⟩

/-- C10: releasing a ticket whose slot_id is the empty string (NULL after
ON DELETE SET NULL) succeeds, marks the ticket released, and touches no slot
row at all. -/
theorem c10_release_without_slot (st : Store) (t : Ticket) (svc : Service) (bid : String)
    (ht : findTicketByID st t.id = .ok t)
    (hsvc : findService st t.serviceID = .ok svc)
    (hown : svc.businessID = bid)
    (hslot : t.slotID = "") :
    (release st t.id bid).1 = .ok ()
    ∧ ((release st t.id bid).2).slots = st.slots
    ∧ (∀ u ∈ ((release st t.id bid).2).tickets, u.id = t.id →
        u.status = "released" ∧ u.releasedAt = some st.now) := by
  unfold release
  simp only [ht, hsvc]
  rw [if_neg (not_not_intro hown), if_neg (not_not_intro hslot)]
  refine ⟨rfl, rfl, ?_⟩
  intro u hu hid
  simp only [ticketUpdateStatus] at hu
  rcases List.mem_map.mp hu with ⟨t0, _, rfl⟩
  by_cases hc : (t0.id == t.id) = true
  · simp [hc]
  · simp only [hc, if_false] at hid ⊢
    exact absurd (by simpa using hid) (by simpa using hc)

theorem c10_witness :
    findTicketByID c10Store noSlotTicket.id = .ok noSlotTicket
    ∧ noSlotTicket.slotID = ""
    ∧ (release c10Store noSlotTicket.id "b1").1 = .ok ()
    ∧ ((release c10Store noSlotTicket.id "b1").2).slots = c10Store.slots
    ∧ (∀ u ∈ ((release c10Store noSlotTicket.id "b1").2).tickets,
        u.id = noSlotTicket.id → u.status = "released" ∧ u.releasedAt = some 1700000300) := by
  have h := c10_release_without_slot c10Store noSlotTicket svcOne "b1"
    (by rfl) (by rfl) (by decide) (by decide)
  exact ⟨by rfl, by decide, h.1, h.2.1, h.2.2⟩

/-- C4 counterexample: on a ticket released at 1700000000, a second Release at
clock 1700000500 succeeds and the slot stays free, but the stored released_at
is overwritten with the new clock value, so it does not survive unchanged. -/
theorem c4_counterexample_released_at_overwritten :
    (release c4Store "11111111-2222-3333-4444-555555555555" "b1").1 = .ok ()
    ∧ ((release c4Store "11111111-2222-3333-4444-555555555555" "b1").2).tickets.map
        Ticket.releasedAt = [some 1700000500]
    ∧ c4Store.tickets.map Ticket.releasedAt = [some 1700000000]
    ∧ ((release c4Store "11111111-2222-3333-4444-555555555555" "b1").2).slots.map
        Slot.status = ["free", "free"] :=
  ⟨rfl, rfl, rfl, rfl⟩

/-- C4 (amended): a second Release of an already-released ticket by the owning
business does succeed and does leave its slot 'free', but it overwrites the
ticket's released_at with the current clock instead of keeping it. -/
theorem c4_release_second_time (st : Store) (t : Ticket) (svc : Service) (bid : String)
    (ht : findTicketByID st t.id = .ok t)
    (hsvc : findService st t.serviceID = .ok svc)
    (hown : svc.businessID = bid)
    (hrel : t.status = "released")
    (hslot : t.slotID ≠ "")
    (hmem : st.slots.any (fun s => s.id == t.slotID) = true) :
    (release st t.id bid).1 = .ok ()
    ∧ (∀ u ∈ ((release st t.id bid).2).tickets, u.id = t.id →
        u.status = "released" ∧ u.releasedAt = some st.now)
    ∧ (∀ s ∈ ((release st t.id bid).2).slots, s.id = t.slotID → s.status = "free") := by
  unfold release
  simp only [ht, hsvc]
  rw [if_neg (not_not_intro hown), if_pos hslot]
  unfold slotUpdateStatus
  rw [if_pos (by simpa only [ticketUpdateStatus] using hmem)]
  refine ⟨rfl, ?_, ?_⟩
  · intro u hu hid
    simp only [ticketUpdateStatus] at hu
    rcases List.mem_map.mp hu with ⟨t0, _, rfl⟩
    by_cases hc : (t0.id == t.id) = true
    · simp [hc]
    · simp only [hc, if_false] at hid ⊢
      exact absurd (by simpa using hid) (by simpa using hc)
  · intro s hs hid
    simp only [ticketUpdateStatus] at hs
    rcases List.mem_map.mp hs with ⟨s0, _, rfl⟩
    by_cases hc : (s0.id == t.slotID) = true
    · simp [hc]
    · simp only [hc, if_false] at hid ⊢
      exact absurd (by simpa using hid) (by simpa using hc)

theorem c4_release_second_time_witness :
    (release c4Store "11111111-2222-3333-4444-555555555555" "b1").1 = .ok ()
    ∧ (∀ u ∈ ((release c4Store "11111111-2222-3333-4444-555555555555" "b1").2).tickets,
        u.id = "11111111-2222-3333-4444-555555555555" →
        u.status = "released" ∧ u.releasedAt = some 1700000500)
    ∧ (∀ s ∈ ((release c4Store "11111111-2222-3333-4444-555555555555" "b1").2).slots,
        s.id = "sl1" → s.status = "free") :=
  c4_release_second_time c4Store { releasedTicket with releasedAt := some 1700000000 }
    svcOne "b1" (by rfl) (by rfl) (by decide) (by decide) (by decide) (by decide)

/-- C5: ClaimNextFreeSlot returns, occupied, a slot that was free for the
service with the smallest slot_number among the free ones, updating exactly
that row; with no free slot it fails Conflict "no free slots available" and
leaves the store untouched; and it does succeed whenever a free slot exists. -/
theorem c5_claim_next_free_slot (st : Store) (sid : String) :
    (∀ sl st', claimNextFreeSlot st sid = (.ok sl, st') →
      sl.status = "occupied"
      ∧ sl.serviceID = sid
      ∧ (∃ s0 ∈ st.slots, s0.id = sl.id ∧ s0.status = "free" ∧ s0.serviceID = sid
          ∧ s0.slotNumber = sl.slotNumber)
      ∧ (∀ s ∈ st.slots, s.serviceID = sid → s.status = "free" →
          sl.slotNumber ≤ s.slotNumber)
      ∧ st'.slots = st.slots.map (fun s =>
          if s.id == sl.id then { s with status := "occupied", updatedAt := st.now } else s))
    ∧ ((∀ s ∈ st.slots, s.serviceID = sid → s.status ≠ "free") →
        claimNextFreeSlot st sid = (.error (.app .conflict "no free slots available"), st))
    ∧ ((∃ s ∈ st.slots, s.serviceID = sid ∧ s.status = "free") →
        ∃ sl st', claimNextFreeSlot st sid = (.ok sl, st')) := by
  refine ⟨?_, ?_, ?_⟩
  · intro sl st' h
    unfold claimNextFreeSlot at h
    split at h
    · simp at h
    · rename_i m hmin
      rw [Prod.mk.injEq] at h
      obtain ⟨h1, h2⟩ := h
      injection h1 with h1
      have hm := minBySlotNumber_mem hmin
      rw [List.mem_filter] at hm
      obtain ⟨hmem, hpred⟩ := hm
      rw [Bool.and_eq_true, beq_iff_eq, beq_iff_eq] at hpred
      obtain ⟨hsid, hfree⟩ := hpred
      subst h1
      refine ⟨rfl, hsid, ⟨m, hmem, rfl, hfree, hsid, rfl⟩, ?_, ?_⟩
      · intro s hs hssid hsfree
        exact minBySlotNumber_min hmin s
          (List.mem_filter.mpr ⟨hs, by simp [hssid, hsfree]⟩)
      · rw [← h2]
  · intro hnone
    unfold claimNextFreeSlot
    have hfil : st.slots.filter (fun s => s.serviceID == sid && s.status == "free") = [] := by
      rw [List.filter_eq_nil_iff]
      intro s hs
      simp only [Bool.and_eq_true, beq_iff_eq, not_and]
      intro h1 h2
      exact hnone s hs h1 h2
    rw [hfil]
    rfl
  · rintro ⟨s, hs, hsid, hfree⟩
    have hmem : s ∈ st.slots.filter (fun s => s.serviceID == sid && s.status == "free") :=
      List.mem_filter.mpr ⟨hs, by simp [hsid, hfree]⟩
    cases hmin : minBySlotNumber
        (st.slots.filter (fun s => s.serviceID == sid && s.status == "free")) with
    | none =>
      rw [minBySlotNumber_none hmin] at hmem
      cases hmem
    | some m =>
      refine ⟨{ m with status := "occupied", updatedAt := st.now },
        { st with slots := st.slots.map (fun s =>
          if s.id == m.id then { s with status := "occupied", updatedAt := st.now } else s) },
        ?_⟩
      unfold claimNextFreeSlot
      rw [hmin]

theorem c5_claim_next_free_slot_witness :
    (∃ sl st', claimNextFreeSlot c2Store "s1" = (.ok sl, st'))
    ∧ claimNextFreeSlot c5EmptyStore "s1"
        = (.error (.app .conflict "no free slots available"), c5EmptyStore) :=
  ⟨(c5_claim_next_free_slot c2Store "s1").2.2 ⟨slotFree1, by decide, by decide, by decide⟩,
   (c5_claim_next_free_slot c5EmptyStore "s1").2.1 (by intro s hs; cases hs)⟩

/-- C9: CreateService rejects an empty name or a non-positive total_slots with
the Validation error and changes nothing; on success it appends exactly
total_slots new slot rows for the new service, numbered 1..total_slots in
order (no gaps, no duplicates), all with status 'free'. -/
theorem c9_create_service (st : Store) (req : CreateServiceRequest) :
    ((req.name = "" ∨ req.totalSlots ≤ 0) →
      (createService st req).1
        = .error (.app .validationError "name and total_slots (>0) are required")
      ∧ (createService st req).2 = st)
    ∧ (∀ resp, (createService st req).1 = .ok resp →
        0 < req.totalSlots
        ∧ ∃ newSlots,
            ((createService st req).2).slots = st.slots ++ newSlots
            ∧ newSlots.map Slot.slotNumber
                = (List.range req.totalSlots.toNat).map (fun i : Nat => ((i : Int) + 1))
            ∧ newSlots.length = req.totalSlots.toNat
            ∧ (∀ s ∈ newSlots, s.status = "free" ∧ s.serviceID = resp.id)) := by
  constructor
  · intro h
    unfold createService
    rw [if_pos h]
    exact ⟨rfl, rfl⟩
  · intro resp h
    unfold createService at h ⊢
    by_cases hval : req.name = "" ∨ req.totalSlots ≤ 0
    · rw [if_pos hval] at h
      simp at h
    · rw [if_neg hval] at h ⊢
      constructor
      · push_neg at hval
        omega
      · split at h
        · simp at h
        · rename_i b hb
          dsimp only at h ⊢
          injection h with h
          refine ⟨_, rfl, ?_, ?_, ?_⟩
          · rw [List.map_map]
            rfl
          · rw [List.length_map, List.length_range]
          · intro s hs
            rcases List.mem_map.mp hs with ⟨i, _, rfl⟩
            subst h
            exact ⟨rfl, rfl⟩

theorem c9_create_service_witness :
    ((createService c2Store { name := "", totalSlots := 3, businessID := "b1" }).1
      = .error (.app .validationError "name and total_slots (>0) are required"))
    ∧ (0 < (3 : Int)
       ∧ ∃ newSlots,
          ((createService c2Store { name := "Gym", totalSlots := 3, businessID := "b1" }).2).slots
            = c2Store.slots ++ newSlots
          ∧ newSlots.map Slot.slotNumber
              = (List.range (3 : Int).toNat).map (fun i : Nat => ((i : Int) + 1))
          ∧ newSlots.length = (3 : Int).toNat
          ∧ (∀ s ∈ newSlots, s.status = "free"
              ∧ s.serviceID = "11111111-2222-3333-4444-555555555555")) :=
  ⟨((c9_create_service c2Store { name := "", totalSlots := 3, businessID := "b1" }).1
      (Or.inl rfl)).1,
   (c9_create_service c2Store { name := "Gym", totalSlots := 3, businessID := "b1" }).2
     { id := "11111111-2222-3333-4444-555555555555", businessID := "b1", name := "Gym",
       totalSlots := 3, createdAt := 1700000000, updatedAt := 1700000000 } (by rfl)⟩

/-- C6 counterexample: the decoder accepts a payload with version 2 and a
non-UUID sid — only malformed base64, malformed JSON and a bad tid are
rejected, and no "unsupported payload version" check exists. -/
theorem c6_counterexample_v2_accepted :
    qrDecode payloadV2.encode = .ok payloadV2
    ∧ payloadV2.version = 2
    ∧ uuidParseOk payloadV2.serviceID = false :=
  ⟨qrDecode_encode payloadV2 (by decide) (by decide) (by decide) (by decide) (by decide),
   rfl, by decide⟩

/-- C6 (amended): Decode rejects malformed base64, malformed JSON, and a tid
that is not a well-formed UUID, and every payload it accepts has a UUID tid;
it does not examine v, sid or bid. On any decode error, Scan fails with
BadRequest "invalid QR payload". -/
theorem c6_decode_rejections (enc : String) (st : Store) (bid : String) :
    (base64decode enc.data = none → qrDecode enc = .error "invalid base64 encoding")
    ∧ (∀ bytes, base64decode enc.data = some bytes →
        unmarshalPayload (bytes.map Char.ofNat) = none →
        qrDecode enc = .error "invalid payload JSON")
    ∧ (∀ bytes p, base64decode enc.data = some bytes →
        unmarshalPayload (bytes.map Char.ofNat) = some p →
        uuidParseOk p.ticketID = false →
        qrDecode enc = .error "invalid ticket ID format")
    ∧ (∀ p, qrDecode enc = .ok p → uuidParseOk p.ticketID = true)
    ∧ (∀ e, qrDecode enc = .error e →
        scan st { qrPayload := enc, businessID := bid }
          = .error (.app .badRequest "invalid QR payload")) := by
  refine ⟨?_, ?_, ?_, ?_, ?_⟩
  · intro h
    unfold qrDecode
    rw [h]
  · intro bytes hb hj
    unfold qrDecode
    simp only [hb]
    unfold qrDecodeJson
    simp only [hj]
  · intro bytes p hb hj hu
    unfold qrDecode
    simp only [hb]
    unfold qrDecodeJson
    simp only [hj]
    simp [qrDecodeCheckTid, hu]
  · intro p h
    unfold qrDecode at h
    split at h
    · cases h
    · unfold qrDecodeJson at h
      split at h
      · cases h
      · unfold qrDecodeCheckTid at h
        split at h
        · rename_i hok
          injection h with h
          subst h
          exact hok
        · cases h
  · intro e h
    unfold scan
    rw [h]

theorem c6_decode_rejections_witness :
    qrDecode "!!!!" = .error "invalid base64 encoding"
    ∧ scan c2Store { qrPayload := "!!!!", businessID := "b1" }
        = .error (.app .badRequest "invalid QR payload") :=
  ⟨(c6_decode_rejections "!!!!" c2Store "b1").1 (by decide),
   (c6_decode_rejections "!!!!" c2Store "b1").2.2.2.2 "invalid base64 encoding"
     ((c6_decode_rejections "!!!!" c2Store "b1").1 (by decide))⟩

/-- C3: refuted by the code's response shape — scanning a released ticket does
succeed with status 'released', but the response carries released_at = nil
even though the stored ticket has a populated released_at (and the response
has no ticket_id or issued_at field at all). -/
theorem c3_scan_released_reports_nil_released_at :
    scan c3Store { qrPayload := fixturePayload.encode, businessID := "b1" }
      = .ok { slotNumber := 1, serviceID := "s1", status := "released", releasedAt := none }
    ∧ findTicketByHMAC c3Store fixturePayload.hmac = .ok releasedTicket
    ∧ releasedTicket.releasedAt = some 1700000100 := by
  have hdec : qrDecode fixturePayload.encode = .ok fixturePayload :=
    qrDecode_encode fixturePayload (by decide) (by decide) (by decide)
      (hmacHex_ascii "secret-key" (canonicalString fixtureCanonical)) (by decide)
  have hfind : findTicketByHMAC c3Store fixturePayload.hmac = .ok releasedTicket :=
    findTicketByHMAC_head c3Store releasedTicket [] rfl
  have hcanon : canonicalString fixturePayload = canonicalString fixtureCanonical := by
    unfold canonicalString
    rfl
  have hver : fixturePayload.verify bizKeyed.hmacKey = .ok () := by
    unfold Payload.verify
    rw [if_neg (show ¬fixturePayload.hmac = "" from hmacHex_ne_empty _ _),
        if_neg (show ¬bizKeyed.hmacKey = "" from by decide)]
    rw [show bizKeyed.hmacKey = "secret-key" from rfl, hcanon]
    rw [if_pos (show hmacHex "secret-key" (canonicalString fixtureCanonical)
        = fixturePayload.hmac from rfl)]
  exact ⟨scan_ok_shape c3Store _ fixturePayload bizKeyed releasedTicket hdec rfl rfl hver hfind,
         hfind, rfl⟩

/-- C8 (amended): a Scan that decodes, passes the tenancy check and verifies,
but whose digest matches no stored ticket, fails with the unwrapped pgx
error raw "no rows in result set" — not with the NotFound kind (the usecase's
IsNotFound branch never fires because the repository returns the raw error). -/
theorem c8_missing_digest_raw_error (st : Store) (req : ScanRequest) (p : Payload) (b : Business)
    (hdec : qrDecode req.qrPayload = .ok p)
    (hbid : p.businessID = req.businessID)
    (hb : findBusiness st req.businessID = .ok b)
    (hver : p.verify b.hmacKey = .ok ())
    (habs : st.tickets.find? (fun t => t.hmacDigest == p.hmac) = none) :
    scan st req = .error (.raw "no rows in result set") :=
  scan_raw_shape st req p b hdec hbid hb hver habs

/-- C8 counterexample: in a store with no tickets, scanning a well-signed
fixture payload for the owning business yields the raw driver error, not a
NotFound application error. -/
theorem c8_counterexample_raw_not_notfound :
    scan c8Store { qrPayload := fixturePayload.encode, businessID := "b1" }
      = .error (.raw "no rows in result set")
    ∧ (Err.raw "no rows in result set").isNotFound = false := by
  have hdec : qrDecode fixturePayload.encode = .ok fixturePayload :=
    qrDecode_encode fixturePayload (by decide) (by decide) (by decide)
      (hmacHex_ascii "secret-key" (canonicalString fixtureCanonical)) (by decide)
  have hcanon : canonicalString fixturePayload = canonicalString fixtureCanonical := by
    unfold canonicalString
    rfl
  have hver : fixturePayload.verify bizKeyed.hmacKey = .ok () := by
    unfold Payload.verify
    rw [if_neg (show ¬fixturePayload.hmac = "" from hmacHex_ne_empty _ _),
        if_neg (show ¬bizKeyed.hmacKey = "" from by decide)]
    rw [show bizKeyed.hmacKey = "secret-key" from rfl, hcanon]
    rw [if_pos (show hmacHex "secret-key" (canonicalString fixtureCanonical)
        = fixturePayload.hmac from rfl)]
  exact ⟨scan_raw_shape c8Store _ fixturePayload bizKeyed hdec rfl rfl hver rfl, rfl⟩

theorem c8_missing_digest_raw_error_witness :
    qrDecode fixturePayload.encode = .ok fixturePayload
    ∧ c8Store.tickets.find? (fun t => t.hmacDigest == fixturePayload.hmac) = none
    ∧ scan c8Store { qrPayload := fixturePayload.encode, businessID := "b1" }
        = .error (.raw "no rows in result set") := by
  have hdec : qrDecode fixturePayload.encode = .ok fixturePayload :=
    qrDecode_encode fixturePayload (by decide) (by decide) (by decide)
      (hmacHex_ascii "secret-key" (canonicalString fixtureCanonical)) (by decide)
  refine ⟨hdec, rfl, ?_⟩
  refine c8_missing_digest_raw_error c8Store _ fixturePayload bizKeyed hdec rfl rfl ?_ rfl
  unfold Payload.verify
  rw [if_neg (show ¬fixturePayload.hmac = "" from hmacHex_ne_empty _ _),
      if_neg (show ¬bizKeyed.hmacKey = "" from by decide)]
  rw [show bizKeyed.hmacKey = "secret-key" from rfl,
      show canonicalString fixturePayload = canonicalString fixtureCanonical from by
        unfold canonicalString
        rfl]
  rw [if_pos (show hmacHex "secret-key" (canonicalString fixtureCanonical)
      = fixturePayload.hmac from rfl)]

/-- C2: every successful CheckIn by a business with a non-empty HMAC key
returns a QR payload string that decodes back to a payload verifying under
that key (Verify after Decode succeeds). The minted ticket id must be a
parseable UUID with ASCII text, as `uuid.New()` guarantees in the source. -/
theorem c2_checkin_decode_verify (st : Store) (req : CheckInRequest)
    (resp : CheckInResponse) (b : Business)
    (hb : findBusiness st req.businessID = .ok b)
    (hK : b.hmacKey ≠ "")
    (hu1 : asciiString (st.uuids 0) = true)
    (hu2 : uuidParseOk (st.uuids 0) = true)
    (hs : asciiString req.serviceID = true)
    (hbid : asciiString req.businessID = true)
    (h : (checkIn st req).1 = .ok resp) :
    ∃ p, qrDecode resp.qrPayload = .ok p ∧ p.verify b.hmacKey = .ok () := by
  unfold checkIn at h
  split at h
  · exact absurd h (by simp)
  · rename_i service hsvc
    split at h
    · exact absurd h (by simp)
    · split at h
      · exact absurd h (by simp)
      · rename_i business hfb
        rw [hb] at hfb
        injection hfb with hfb
        subst hfb
        split at h
        · exact absurd h (by simp)
        · rename_i slot st1 hclaim
          have huu : st1.uuids = st.uuids := by
            have hc := congrArg (fun x => x.2.uuids) hclaim
            simp only [claimNextFreeSlot_uuids] at hc
            exact hc.symm
          dsimp only at h
          split at h
          · exact absurd h (by simp)
          · rename_i signed hsign
            split at h
            · exact absurd h (by simp)
            · dsimp only at h
              injection h with h
              subst h
              refine ⟨signed, ?_, verify_sign _ b.hmacKey hK signed hsign⟩
              unfold Payload.sign at hsign
              rw [if_neg hK] at hsign
              injection hsign with hsign
              subst hsign
              apply qrDecode_encode
              · show asciiString (st1.uuids 0) = true
                rw [congrFun huu 0]
                exact hu1
              · exact hs
              · exact hbid
              · exact hmacHex_ascii _ _
              · show uuidParseOk (st1.uuids 0) = true
                rw [congrFun huu 0]
                exact hu2

theorem c2_checkin_decode_verify_witness :
    findBusiness c2Store "b1" = .ok bizKeyed
    ∧ bizKeyed.hmacKey ≠ ""
    ∧ (checkIn c2Store c2Req).1 = .ok c2Resp
    ∧ ∃ p, qrDecode c2Resp.qrPayload = .ok p ∧ p.verify bizKeyed.hmacKey = .ok () := by
  refine ⟨rfl, by decide, rfl, ?_⟩
  exact c2_checkin_decode_verify c2Store c2Req c2Resp bizKeyed rfl (by decide)
    (by decide) (by decide) (by decide) (by decide) rfl
